import Mathlib

/-!
Verification of the LaCassette metadata extraction and reconciliation engine.

This file gives a shallow embedding of the core of the repository:

* `extractBasicMetadata` — the title parser of
  `web/src/app/api/import-youtube/route.ts` (lines 242-336);
* `buildSearchQueries`, `calculateSimilarityScore`, `findBestMatch`,
  `searchSpotifyTrack`, `enrichTrackData`, `enrichMetadata` — the
  `MusicMetadataEnricher` class of `web/src/lib/music-metadata.ts`;
* `enrichMetadataWithAPIs` — the provider orchestrator of the route
  (lines 341-410);
* `reconcileMetadata` — the post-acceptance validation of `POST`
  (lines 82-112).

JavaScript regular expressions are embedded through a small backtracking
matcher (`mtch`) mirroring ECMAScript semantics: alternatives and
quantifiers produce candidate continuations in backtracking priority
order, and an anchored match takes the first candidate that reaches the
end of the string.  All quantified atoms in the source patterns are
single-character classes, so `*` and `+` are only provided over character
classes.  JavaScript numbers are modelled as exact rationals (`ℚ`), `NaN`
from `parseInt` is modelled as `0` (both are falsy and no claim depends
on the difference), and `toLowerCase` is modelled on the ASCII range.
Network effects are modelled by explicit transport oracles (`Providers`).
-/

namespace LaCassette

/-! ## JavaScript string primitives -/

/-- ASCII lower-casing, the fragment of `String.prototype.toLowerCase`
relevant to the source's comparisons. -/
def asciiLower (c : Char) : Char :=
  if 'A' ≤ c ∧ c ≤ 'Z' then Char.ofNat (c.toNat + 32) else c

/-- The ECMAScript `\s` class: WhiteSpace plus LineTerminator. -/
def jsWs (c : Char) : Bool :=
  c = ' ' ∨ c = '\t' ∨ c = '\n' ∨ c = '\x0b' ∨ c = '\x0c' ∨ c = '\r' ∨
  c.toNat = 0xa0 ∨ c.toNat = 0x1680 ∨
  (0x2000 ≤ c.toNat ∧ c.toNat ≤ 0x200a) ∨
  c.toNat = 0x2028 ∨ c.toNat = 0x2029 ∨ c.toNat = 0x202f ∨
  c.toNat = 0x205f ∨ c.toNat = 0x3000 ∨ c.toNat = 0xfeff

/-- The ECMAScript `.` (dotAll off): any char except a LineTerminator. -/
def jsDot (c : Char) : Bool :=
  ¬ (c = '\n' ∨ c = '\r' ∨ c.toNat = 0x2028 ∨ c.toNat = 0x2029)

/-- The ECMAScript `\d` class. -/
def jsDigit (c : Char) : Bool := '0' ≤ c ∧ c ≤ '9'

/-- The ECMAScript `\w` class. -/
def jsWord (c : Char) : Bool :=
  ('a' ≤ c ∧ c ≤ 'z') ∨ ('A' ≤ c ∧ c ≤ 'Z') ∨ ('0' ≤ c ∧ c ≤ '9') ∨ c = '_'

/-- Lower-case every character of a character list. -/
def lowerL (s : List Char) : List Char := s.map asciiLower

/-- JavaScript `String.prototype.trim` on character lists. -/
def jsTrimL (s : List Char) : List Char :=
  ((s.dropWhile jsWs).reverse.dropWhile jsWs).reverse

/-- JavaScript `trim` on strings. -/
def jsTrimS (s : String) : String := String.mk (jsTrimL s.data)

/-- Does `s` start with `pre`? -/
def listStartsWith : List Char → List Char → Bool
  | _, [] => true
  | [], _ :: _ => false
  | c :: cs, d :: ds => c == d && listStartsWith cs ds

/-- Substring occurrence test. -/
def containsSub (needle : List Char) : List Char → Bool
  | [] => listStartsWith [] needle
  | c :: t => listStartsWith (c :: t) needle || containsSub needle t

/-- JavaScript `hay.includes(needle)` on character lists. -/
def jsIncludesL (hay needle : List Char) : Bool := containsSub needle hay

/-- JavaScript `a.includes(b)` on strings. -/
def jsIncludesS (a b : String) : Bool := jsIncludesL a.data b.data

/-- JavaScript `s || d` for strings (empty string is falsy). -/
def jsOrStr (s d : String) : String := if s = "" then d else s

/-- Floor of a rational, computed by floor division of numerator by
denominator. -/
def ratFloor (q : ℚ) : ℤ := q.num.fdiv q.den

/-- JavaScript `Math.round`. -/
def jsRound (q : ℚ) : ℚ := ((ratFloor (q + 1/2) : ℤ) : ℚ)

/-- JavaScript `Math.min` (no `NaN` arises at its use site). -/
def jsMin (a b : ℚ) : ℚ := if a ≤ b then a else b

/-- Digit run accumulator for `jsParseInt`. -/
def jsParseIntDigits : List Char → Nat → Nat
  | [], acc => acc
  | c :: cs, acc =>
    if jsDigit c then jsParseIntDigits cs (acc * 10 + (c.toNat - '0'.toNat))
    else acc

/-- JavaScript `parseInt(s)` (base 10): optional sign then a leading digit
run; a string with no leading digits gives `NaN`, modelled as `0`. -/
def jsParseInt (s : String) : ℚ :=
  match s.data.dropWhile jsWs with
  | '-' :: rest => -((jsParseIntDigits rest 0 : ℚ))
  | '+' :: rest => (jsParseIntDigits rest 0 : ℚ)
  | rest => (jsParseIntDigits rest 0 : ℚ)

/-- State machine for `split(/\s+/)`: `inRun` records whether the previous
character was part of a whitespace run. -/
def jsSplitWsGo : List Char → List Char → Bool → List (List Char)
  | [], acc, _ => [acc.reverse]
  | c :: cs, acc, inRun =>
    if jsWs c then
      if inRun then jsSplitWsGo cs [] true
      else acc.reverse :: jsSplitWsGo cs [] true
    else jsSplitWsGo cs (c :: acc) false

/-- JavaScript `s.split(/\s+/)`: split at maximal whitespace runs, keeping
boundary empties exactly as ECMAScript does. -/
def jsSplitWs (s : List Char) : List (List Char) := jsSplitWsGo s [] false

/-- State machine for `replace(/\s+/g, ' ')`. -/
def collapseWsGo : List Char → Bool → List Char
  | [], _ => []
  | c :: cs, inRun =>
    if jsWs c then
      if inRun then collapseWsGo cs true else ' ' :: collapseWsGo cs true
    else c :: collapseWsGo cs false

/-- JavaScript `s.replace(/\s+/g, ' ')`. -/
def collapseWs (s : List Char) : List Char := collapseWsGo s false

/-- JavaScript `s.replace(/[^\w\s]/g, ' ')`: a single-character class, so
the global replace is a pointwise map. -/
def punctToSpace (s : List Char) : List Char :=
  s.map (fun c => if jsWord c ∨ jsWs c then c else ' ')

/-! ## A backtracking regex matcher (ECMAScript semantics)

Quantified atoms in every pattern of the source are single-character
classes, so `*` and `+` exist only over classes; `?` (greedy) exists over
arbitrary expressions (used for the optional third dash segment and for
optional literal characters). -/

/-- Regular expressions as used by the source.  `cls` is a character
class; `optG` is greedy `?`; `starG`/`plusG` are greedy `*`/`+` over a
class, `starL`/`plusL` their lazy variants; `grp` is a capturing group. -/
inductive RE where
  | eps : RE
  | cls : (Char → Bool) → RE
  | cat : RE → RE → RE
  | alt : RE → RE → RE
  | optG : RE → RE
  | starG : (Char → Bool) → RE
  | starL : (Char → Bool) → RE
  | plusG : (Char → Bool) → RE
  | plusL : (Char → Bool) → RE
  | grp : Nat → RE → RE

/-- Captured groups: most recent first. -/
abbrev Caps := List (Nat × List Char)

/-- Length of the maximal leading run of characters satisfying `p`. -/
def leadRun (p : Char → Bool) : List Char → Nat
  | [] => 0
  | c :: cs => if p c then leadRun p cs + 1 else 0

/-- All states obtained by dropping each of `is` characters. -/
def drops (s : List Char) (k : Caps) (is : List Nat) :
    List (List Char × Caps) :=
  is.map (fun i => (s.drop i, k))

/-- The matcher: all (remaining input, captures) pairs in ECMAScript
backtracking priority order. -/
def mtch : RE → List Char → Caps → List (List Char × Caps)
  | .eps, s, k => [(s, k)]
  | .cls p, s, k =>
    match s with
    | [] => []
    | c :: cs => if p c then [(cs, k)] else []
  | .cat a b, s, k => (mtch a s k).flatMap fun pr => mtch b pr.1 pr.2
  | .alt a b, s, k => mtch a s k ++ mtch b s k
  | .optG a, s, k => mtch a s k ++ [(s, k)]
  | .starG p, s, k => drops s k (List.range (leadRun p s + 1)).reverse
  | .starL p, s, k => drops s k (List.range (leadRun p s + 1))
  | .plusG p, s, k => drops s k (List.range' 1 (leadRun p s)).reverse
  | .plusL p, s, k => drops s k (List.range' 1 (leadRun p s))
  | .grp n a, s, k =>
    (mtch a s k).map fun pr =>
      (pr.1, (n, s.take (s.length - pr.1.length)) :: pr.2)

/-- Anchored match (the source's patterns are `^...$`): the first
candidate, in priority order, that consumes the whole input. -/
def reMatch (r : RE) (s : List Char) : Option Caps :=
  ((mtch r s []).find? fun pr => pr.1.isEmpty).map (fun pr => pr.2)

/-- Length of the priority-first match of `r` at the start of `s`
(not anchored at the end), as used by `replace`. -/
def firstMatchLen (r : RE) (s : List Char) : Option Nat :=
  (mtch r s []).head?.map (fun pr => s.length - pr.1.length)

/-- Worker for the global replace: `skip` counts characters still covered
by the previously found match (and hence deleted). -/
def replaceGo (r : RE) : List Char → Nat → List Char
  | [], _ => []
  | _ :: cs, skip + 1 => replaceGo r cs skip
  | c :: cs, 0 =>
    match firstMatchLen r (c :: cs) with
    | none => c :: replaceGo r cs 0
    | some 0 => c :: replaceGo r cs 0
    | some (k + 1) => replaceGo r cs k

/-- JavaScript `s.replace(r, '')` with the `g` flag: scan left to right,
delete each leftmost match, resume after it. -/
def replaceAllG (r : RE) (s : List Char) : List Char := replaceGo r s 0

/-- Literal character. -/
abbrev litc (c : Char) : RE := .cls (fun x => x == c)

/-- Case-insensitive literal character (the `i` flag). -/
abbrev litCI (c : Char) : RE := .cls (fun x => asciiLower x == asciiLower c)

/-- Sequence of exact literal characters. -/
def strRE (s : String) : RE := s.data.foldr (fun c r => .cat (litc c) r) .eps

/-- Sequence of case-insensitive literal characters. -/
def strCI (s : String) : RE := s.data.foldr (fun c r => .cat (litCI c) r) .eps

/-- Captured group lookup; an absent group reads as the empty capture
(JavaScript `undefined`). -/
def getCap (k : Caps) (n : Nat) : List Char :=
  match k.find? (fun pr => pr.1 == n) with
  | some pr => pr.2
  | none => []

/-- Truthiness of `match[n]` in JavaScript: present and non-empty. -/
def capTruthy (k : Caps) (n : Nat) : Bool :=
  match k.find? (fun pr => pr.1 == n) with
  | some pr => decide (pr.2 ≠ [])
  | none => false

/-! ## The title parser (`extractBasicMetadata`, route.ts lines 242-336) -/

/-- The part of pattern 1 after the lazy title group:
`\s*\(([^)]+)\)\s*-\s*(.+)$`. -/
def songYearArtistRest : RE :=
  .cat (.starG jsWs) <|
  .cat (litc '(') <|
  .cat (.grp 2 (.plusG (fun c => !(c == ')')))) <|
  .cat (litc ')') <|
  .cat (.starG jsWs) <|
  .cat (litc '-') <|
  .cat (.starG jsWs) (.grp 3 (.plusG jsDot))

/-- The regex `^(.+?)\s*\(([^)]+)\)\s*-\s*(.+)$` of pattern 1. -/
def songYearArtistPattern : RE :=
  .cat (.grp 1 (.plusL jsDot)) songYearArtistRest

/-- The regex `^(.+?)\s*-\s*(.+?)(?:\s*-\s*(.+))?$` of pattern 2. -/
def dashPattern : RE :=
  .cat (.grp 1 (.plusL jsDot)) <|
  .cat (.starG jsWs) <|
  .cat (litc '-') <|
  .cat (.starG jsWs) <|
  .cat (.grp 2 (.plusL jsDot))
    (.optG (.cat (.starG jsWs)
      (.cat (litc '-') (.cat (.starG jsWs) (.grp 3 (.plusG jsDot))))))

/-- The regex `^(.+?)\s*\(([^)]+)\)$` of the video-qualifier pattern. -/
def songVideoPattern : RE :=
  .cat (.grp 1 (.plusL jsDot)) <|
  .cat (.starG jsWs) <|
  .cat (litc '(') <|
  .cat (.grp 2 (.plusG (fun c => !(c == ')')))) (litc ')')

/-- The regex `^(.+?)\s*[:]\s*(.+)$` of the colon pattern. -/
def artistColonPattern : RE :=
  .cat (.grp 1 (.plusL jsDot)) <|
  .cat (.starG jsWs) <|
  .cat (litc ':') <|
  .cat (.starG jsWs) (.grp 2 (.plusG jsDot))

/-- The test `/^\d{4}$/.test(year)`. -/
def isFourDigitYear (l : List Char) : Bool := l.length == 4 && l.all jsDigit

/-- The year/edition guard of pattern 1 on the trimmed qualifier:
four digits, or containing "remaster" or "edition" case-insensitively. -/
def songYearArtistGuard (year : List Char) : Bool :=
  isFourDigitYear year ||
  jsIncludesL (lowerL year) "remaster".data ||
  jsIncludesL (lowerL year) "edition".data

/-- The video-type guard of the `Song (Qualifier)` pattern. -/
def videoTypeGuard (v : List Char) : Bool :=
  jsIncludesL (lowerL v) "official".data ||
  jsIncludesL (lowerL v) "video".data ||
  jsIncludesL (lowerL v) "audio".data ||
  jsIncludesL (lowerL v) "lyrics".data ||
  jsIncludesL (lowerL v) "remaster".data

/-- The structured guess `{artist, album, title}`. -/
structure BasicGuess where
  artist : String
  album : String
  title : String
deriving DecidableEq

/-- Attempt pattern 1 (`Title (Qualifier) - Artist`); `none` both when the
regex does not match and when the qualifier guard rejects, in which case
the source falls through to the dash pattern. -/
def tryP1 (cs : List Char) : Option BasicGuess :=
  match reMatch songYearArtistPattern cs with
  | none => none
  | some caps =>
    let songTitle := jsTrimL (getCap caps 1)
    let year := jsTrimL (getCap caps 2)
    let artist := jsTrimL (getCap caps 3)
    if songYearArtistGuard year then
      some ⟨String.mk artist, "Unknown Album", String.mk songTitle⟩
    else none

/-- Attempt pattern 2 (`Artist - Song` / `Artist - Album - Song`). -/
def tryDash (cs : List Char) : Option BasicGuess :=
  match reMatch dashPattern cs with
  | none => none
  | some caps =>
    if capTruthy caps 3 then
      some ⟨String.mk (jsTrimL (getCap caps 1)),
            String.mk (jsTrimL (getCap caps 2)),
            String.mk (jsTrimL (getCap caps 3))⟩
    else if capTruthy caps 2 then
      some ⟨String.mk (jsTrimL (getCap caps 1)), "Unknown Album",
            String.mk (jsTrimL (getCap caps 2))⟩
    else none

/-- Attempt the `Song (Qualifier)` pattern with the video-type guard. -/
def tryVideo (cs : List Char) : Option BasicGuess :=
  match reMatch songVideoPattern cs with
  | none => none
  | some caps =>
    let songTitle := jsTrimL (getCap caps 1)
    let videoType := jsTrimL (getCap caps 2)
    if videoTypeGuard videoType then
      some ⟨"Unknown Artist", "Unknown Album", String.mk songTitle⟩
    else none

/-- Attempt the `Artist: Song` pattern. -/
def tryColon (cs : List Char) : Option BasicGuess :=
  match reMatch artistColonPattern cs with
  | none => none
  | some caps =>
    some ⟨String.mk (jsTrimL (getCap caps 1)), "Unknown Album",
          String.mk (jsTrimL (getCap caps 2))⟩

/-- The title parser `extractBasicMetadata`: the four patterns in source
order with first-match-wins, then the fallback guess. -/
def extractBasicMetadata (title : String) : BasicGuess :=
  let cs := title.data
  ((tryP1 cs).orElse fun _ =>
    (tryDash cs).orElse fun _ =>
      (tryVideo cs).orElse fun _ => tryColon cs).getD
    ⟨"Unknown Artist", "Unknown Album", jsTrimS title⟩

/-- Does none of the four pattern rules match (or survive its guard)? -/
def noPatternMatches (title : String) : Bool :=
  (tryP1 title.data).isNone && (tryDash title.data).isNone &&
  (tryVideo title.data).isNone && (tryColon title.data).isNone

/-! ## Noise-qualifier patterns shared by the query builder and scorer -/

/-- Common shape `\s*\(<tail>` of every parenthetical noise pattern. -/
def noiseRE (tail : RE) : RE := .cat (.starG jsWs) (.cat (litc '(') tail)

/-- Tail of `/\s*\(Official\s*(Audio|Video|Music\s*Video?)\)/gi`. -/
def officialTailRE : RE :=
  .cat (strCI "Official") <|
  .cat (.starG jsWs)
    (.cat (.alt (strCI "Audio") (.alt (strCI "Video")
        (.cat (strCI "Music")
          (.cat (.starG jsWs) (.cat (strCI "Vide") (.optG (litCI 'o')))))))
      (litc ')'))

/-- The pattern `/\s*\(Official\s*(Audio|Video|Music\s*Video?)\)/gi`
(capture dropped: the replacement ignores captures). -/
def officialNoiseRE : RE := noiseRE officialTailRE

/-- The pattern `/\s*\(Lyrics?\)/gi`. -/
def lyricsNoiseRE : RE :=
  noiseRE (.cat (strCI "Lyric") (.cat (.optG (litCI 's')) (litc ')')))

/-- The pattern `/\s*\(Audio\)/gi`. -/
def audioNoiseRE : RE := noiseRE (.cat (strCI "Audio") (litc ')'))

/-- The pattern `/\s*\(Official\)/gi`. -/
def officialOnlyNoiseRE : RE := noiseRE (.cat (strCI "Official") (litc ')'))

/-- The pattern `/\s*\(Music\s*Video\)/gi`. -/
def musicVideoNoiseRE : RE :=
  noiseRE (.cat (strCI "Music")
    (.cat (.starG jsWs) (.cat (strCI "Video") (litc ')'))))

/-- The pattern `/\s*\(feat\.?\s*[^)]+\)/gi`. -/
def featNoiseRE : RE :=
  noiseRE (.cat (strCI "feat") (.cat (.optG (litc '.'))
    (.cat (.starG jsWs) (.cat (.plusG (fun c => !(c == ')'))) (litc ')')))))

/-- The pattern `/\s*\(ft\.?\s*[^)]+\)/gi`. -/
def ftNoiseRE : RE :=
  noiseRE (.cat (strCI "ft") (.cat (.optG (litc '.'))
    (.cat (.starG jsWs) (.cat (.plusG (fun c => !(c == ')'))) (litc ')')))))

/-- The pattern `/\s*\(featuring\s*[^)]+\)/gi`. -/
def featuringNoiseRE : RE :=
  noiseRE (.cat (strCI "featuring")
    (.cat (.starG jsWs) (.cat (.plusG (fun c => !(c == ')'))) (litc ')'))))

/-- The pattern `/\s*\[[^\]]+\]/gi`. -/
def bracketNoiseRE : RE :=
  .cat (.starG jsWs) (.cat (litc '[')
    (.cat (.plusG (fun c => !(c == ']'))) (litc ']')))

/-! ## The query builder (`buildSearchQueries`, music-metadata.ts 143-196) -/

/-- The `cleanTitle` computation of `buildSearchQueries`: the five noise
replacements in source order, then `trim`. -/
def cleanSearchTitleL (s : List Char) : List Char :=
  jsTrimL (replaceAllG musicVideoNoiseRE
    (replaceAllG officialOnlyNoiseRE
      (replaceAllG audioNoiseRE
        (replaceAllG lyricsNoiseRE
          (replaceAllG officialNoiseRE s)))))

/-- String version of `cleanSearchTitleL`. -/
def cleanSearchTitle (s : String) : String := String.mk (cleanSearchTitleL s.data)

/-- The query builder: strategies 1-8 of `buildSearchQueries`, in push
order.  `split(' ')` is a split on the literal space character. -/
def buildSearchQueries (title artist : String) : List String :=
  let cleanTitle := cleanSearchTitle title
  let artistQueries :=
    if artist ≠ "" ∧ artist ≠ "Unknown Artist" then
      let q123 := ["artist:\"" ++ artist ++ "\" track:\"" ++ cleanTitle ++ "\"",
                   artist ++ " " ++ cleanTitle,
                   cleanTitle ++ " " ++ artist]
      let artistWords := (artist.data.splitOn ' ').map String.mk
      let artistFirstPart := artistWords.headI
      let q45 :=
        if artistFirstPart ≠ "" ∧ artistFirstPart.length > 2 then
          ["artist:\"" ++ artistFirstPart ++ "\" track:\"" ++ cleanTitle ++ "\"",
           artistFirstPart ++ " " ++ cleanTitle]
        else []
      let artistLastPart := artistWords.getLastD ""
      let q67 :=
        if artistLastPart ≠ "" ∧ artistLastPart.length > 2 ∧
            artistLastPart ≠ artistFirstPart then
          ["artist:\"" ++ artistLastPart ++ "\" track:\"" ++ cleanTitle ++ "\"",
           artistLastPart ++ " " ++ cleanTitle]
        else []
      q123 ++ q45 ++ q67
    else []
  let baseQueries := ["track:\"" ++ cleanTitle ++ "\"", cleanTitle]
  let titleWords := (cleanTitle.data.splitOn ' ').map String.mk
  let shortQueries :=
    if titleWords.length > 2 then
      let shortTitle := String.intercalate " " (titleWords.take 2)
      ["track:\"" ++ shortTitle ++ "\"", shortTitle]
    else []
  artistQueries ++ baseQueries ++ shortQueries

/-! ## The similarity scorer (music-metadata.ts 201-278) -/

/-- One image entry of a Spotify album (only `url` is ever read). -/
structure SpotifyImage where
  url : String
  width : ℚ
  height : ℚ
deriving DecidableEq

/-- An artist entry of a Spotify track. -/
structure SpotifyArtist where
  id : String
  name : String
  genres : Option (List String)
deriving DecidableEq

/-- The album of a Spotify track. -/
structure SpotifyAlbum where
  id : String
  name : String
  release_date : String
  images : List SpotifyImage
  genres : Option (List String)
deriving DecidableEq

/-- A Spotify track as consumed by the enricher. -/
structure SpotifyTrack where
  id : String
  name : String
  artists : List SpotifyArtist
  album : SpotifyAlbum
  duration_ms : ℚ
  popularity : ℚ
deriving DecidableEq

/-- The `cleanTitleForComparison` normalisation: lower-case, strip the
noise and featuring parentheticals and bracketed annotations, collapse
punctuation to spaces, collapse whitespace, trim. -/
def cleanTitleForComparisonL (s : List Char) : List Char :=
  jsTrimL (collapseWs (punctToSpace
    (replaceAllG bracketNoiseRE
      (replaceAllG featuringNoiseRE
        (replaceAllG ftNoiseRE
          (replaceAllG featNoiseRE
            (replaceAllG musicVideoNoiseRE
              (replaceAllG officialOnlyNoiseRE
                (replaceAllG audioNoiseRE
                  (replaceAllG lyricsNoiseRE
                    (replaceAllG officialNoiseRE (lowerL s))))))))))))

/-- String version of `cleanTitleForComparisonL`. -/
def cleanTitleForComparison (s : String) : String :=
  String.mk (cleanTitleForComparisonL s.data)

/-- The word-similarity ratio of the scorer's third title branch: the
number of tokens of the (lower-cased, whitespace-split) first string that
occur among the tokens of the second, divided by the larger token count. -/
def tokenRatio (x y : List Char) : ℚ :=
  (((jsSplitWs (lowerL x)).filter
      (fun w => (jsSplitWs (lowerL y)).contains w)).length : ℚ) /
    ((max (jsSplitWs (lowerL x)).length (jsSplitWs (lowerL y)).length : ℕ) : ℚ)

/-- The title component of `calculateSimilarityScore`: 0.6 on exact
normalized equality, 0.4 on substring containment either way, otherwise
0.3 scaled by the shared-token ratio. -/
def titleScore (trackName originalTitle : String) : ℚ :=
  let cleanOriginalTitle := cleanTitleForComparisonL originalTitle.data
  let cleanSpotifyTitle := cleanTitleForComparisonL trackName.data
  if cleanOriginalTitle = cleanSpotifyTitle then 0.6
  else if jsIncludesL cleanSpotifyTitle cleanOriginalTitle ||
      jsIncludesL cleanOriginalTitle cleanSpotifyTitle then 0.4
  else tokenRatio cleanOriginalTitle cleanSpotifyTitle * 0.3

/-- The artist component: skipped for a falsy or sentinel guess artist;
the source then rechecks `if (spotifyArtist)` — the first artist's name
must itself be truthy (present and non-empty) — before awarding 0.3 on
case-insensitive equality or 0.2 on containment either way. -/
def artistScore (track : SpotifyTrack) (originalArtist : String) : ℚ :=
  if originalArtist ≠ "" ∧ originalArtist ≠ "Unknown Artist" then
    match track.artists.head? with
    | some a0 =>
      if a0.name ≠ "" then
        if lowerL a0.name.data = lowerL originalArtist.data then 0.3
        else if jsIncludesL (lowerL a0.name.data) (lowerL originalArtist.data) ||
            jsIncludesL (lowerL originalArtist.data) (lowerL a0.name.data) then 0.2
        else 0
      else 0
    | none => 0
  else 0

/-- `calculateSimilarityScore`: title component + artist component +
popularity bonus, capped at 1.0. -/
def calculateSimilarityScore (track : SpotifyTrack)
    (originalTitle originalArtist : String) : ℚ :=
  let score := titleScore track.name originalTitle +
    artistScore track originalArtist +
    (if track.popularity > 50 then 0.1 else 0)
  jsMin score 1.0

/-- A scored candidate. -/
structure ScoredCandidate where
  track : SpotifyTrack
  score : ℚ
deriving DecidableEq

/-- `findBestMatch`: fold keeping the first strictly-best candidate. -/
def findBestMatch (tracks : List SpotifyTrack)
    (originalTitle originalArtist : String) : Option ScoredCandidate :=
  tracks.foldl
    (fun bestMatch track =>
      let score := calculateSimilarityScore track originalTitle originalArtist
      match bestMatch with
      | none => some ⟨track, score⟩
      | some b => if score > b.score then some ⟨track, score⟩ else some b)
    none

/-! ## Provider transports

Network behaviour is abstracted into oracles.  A search request either
returns a track list (2xx), fails with a non-ok status (the source logs
and continues with the next query), or throws (the source's surrounding
`try` catches it and the whole search returns `null`). -/

/-- Outcome of one Spotify search request. -/
inductive SpOutcome where
  | ok : List SpotifyTrack → SpOutcome
  | httpErr : SpOutcome
  | netThrow : SpOutcome
deriving DecidableEq

/-- A Last.fm `track.search` result entry (only its truthiness and
presence are consumed by the orchestrator). -/
structure LfTrack where
  name : String
deriving DecidableEq

/-- The fields of a Last.fm `track.getInfo` response read by the
orchestrator; `none` models an absent (`undefined`) field. -/
structure LfInfo where
  name : Option String
  artistName : Option String
  albumTitle : Option String
  wikiPublished : Option String
  duration : Option String
  toptags : Option (List String)
  albumImage : Option String
deriving DecidableEq

/-- A MusicBrainz search hit (only `id` is consumed). -/
structure MbRecording where
  id : String
deriving DecidableEq

/-- The fields of a full MusicBrainz recording read by the orchestrator. -/
structure MbFull where
  title : Option String
  artistCreditName : Option String
  artistCreditId : Option String
  releaseTitle : Option String
  releaseDate : Option String
  releaseId : Option String
  length : Option String
  genres : Option (List String)
deriving DecidableEq

/-- The transport oracles of one orchestrator run.  `token` is the
client-credentials exchange (`none` models an authentication failure,
which the source catches and turns into a `null` search result);
`spSearch` answers one Spotify search query; `spArtistFetch` and
`spAlbumFetch` answer the detail fetches of `enrichTrackData` (`none`
models a non-ok response, the inner `Option` the `genres` field);
`lfSearch`/`lfInfo` are the Last.fm calls (`none` models error or empty,
both of which the source collapses to `null`); `mbSearch`/`mbFull`
likewise for MusicBrainz. -/
structure Providers where
  token : Option String
  spSearch : String → SpOutcome
  spArtistFetch : String → Option (Option (List String))
  spAlbumFetch : String → Option (Option (List String))
  lfSearch : Option LfTrack
  lfInfo : Option LfInfo
  mbSearch : Option MbRecording
  mbFull : String → Option MbFull

/-- The final record shape produced by every provider branch. -/
structure EnrichedMetadata where
  title : String
  artist : String
  album : String
  releaseDate : String
  duration : ℚ
  genres : List String
  popularity : ℚ
  spotifyId : Option String
  albumCover : Option String
  artistId : Option String
  albumId : Option String
deriving DecidableEq

/-- `enrichTrackData`: fetch artist details and album details, writing the
`genres` fields when the fetches succeed; failures leave the track as is. -/
def enrichTrackData (P : Providers) (track : SpotifyTrack) : SpotifyTrack :=
  let track1 :=
    match track.artists with
    | [] => track
    | a0 :: rest =>
      match P.spArtistFetch a0.id with
      | some gs => { track with artists := { a0 with genres := gs } :: rest }
      | none => track
  match P.spAlbumFetch track1.album.id with
  | some gs => { track1 with album := { track1.album with genres := gs } }
  | none => track1

/-- The query loop of `searchSpotifyTrack` (lines 95-129): per query, a
thrown transport error aborts the whole search as `null` (caught by the
enclosing `try`); a non-ok response or an empty result set moves to the
next query; a non-empty result set is scored and its best match accepted
only above 0.7, otherwise the loop continues. -/
def searchLoop (P : Providers) (originalTitle originalArtist : String) :
    List String → Option SpotifyTrack
  | [] => none
  | q :: rest =>
    match P.spSearch q with
    | .netThrow => none
    | .httpErr => searchLoop P originalTitle originalArtist rest
    | .ok tracks =>
      if tracks.length > 0 then
        match findBestMatch tracks originalTitle originalArtist with
        | some bestMatch =>
          if bestMatch.score > 0.7 then some (enrichTrackData P bestMatch.track)
          else searchLoop P originalTitle originalArtist rest
        | none => searchLoop P originalTitle originalArtist rest
      else searchLoop P originalTitle originalArtist rest

/-- `searchSpotifyTrack`: acquire a token (failure is caught and returns
`null`), rebuild the queries from the original title/artist — the `query`
argument is received but never read, exactly as in the source — and run
the query loop. -/
def searchSpotifyTrack (P : Providers)
    (query originalTitle originalArtist : String) : Option SpotifyTrack :=
  match P.token with
  | none => none
  | some _ =>
    searchLoop P originalTitle originalArtist
      (buildSearchQueries originalTitle originalArtist)

/-- Worker for `dedupFirst`, carrying the set of already-seen elements. -/
def dedupFirstGo : List String → List String → List String
  | [], _ => []
  | x :: xs, seen =>
    if seen.contains x then dedupFirstGo xs seen
    else x :: dedupFirstGo xs (x :: seen)

/-- The dedup `filter((genre, index, arr) => arr.indexOf(genre) === index)`:
keep the first occurrence of each element, preserving order. -/
def dedupFirst (l : List String) : List String := dedupFirstGo l []

/-- Conversion of an accepted Spotify track to `EnrichedMetadata`
(music-metadata.ts 350-365). -/
def spotifyRecord (track : SpotifyTrack) : EnrichedMetadata :=
  { title := track.name
    artist :=
      match track.artists.head? with
      | some a0 => jsOrStr a0.name "Unknown Artist"
      | none => "Unknown Artist"
    album := track.album.name
    releaseDate := track.album.release_date
    duration := jsRound (track.duration_ms / 1000)
    genres :=
      let combined :=
        (match track.artists.head? with
         | some a0 => a0.genres.getD []
         | none => []) ++ track.album.genres.getD []
      dedupFirst combined
    popularity := track.popularity
    spotifyId := some track.id
    albumCover := (track.album.images.head?).map (fun im => im.url)
    artistId := (track.artists.head?).map (fun a0 => a0.id)
    albumId := some track.album.id }

/-- `MusicMetadataEnricher.enrichMetadata`: build the (unused) initial
search string from title, artist hint and album hint, search, and map the
accepted track. -/
def enrichMetadata (P : Providers) (title artist album : String) :
    Option EnrichedMetadata :=
  let searchQuery :=
    let q1 := if artist ≠ "" ∧ artist ≠ "Unknown Artist"
      then artist ++ " " ++ title else title
    if album ≠ "" ∧ album ≠ "Unknown Album" then q1 ++ " " ++ album else q1
  match searchSpotifyTrack P searchQuery title (jsOrStr artist "Unknown Artist") with
  | none => none
  | some track => some (spotifyRecord track)

/-- The record built from a Last.fm `track.getInfo` response
(route.ts 364-376). -/
def lfStageRecord (info : LfInfo) (title artist album : String) :
    EnrichedMetadata :=
  { title := jsOrStr (info.name.getD "") title
    artist := jsOrStr (info.artistName.getD "") artist
    album := jsOrStr (info.albumTitle.getD "") album
    releaseDate := jsOrStr (info.wikiPublished.getD "") ""
    duration := jsParseInt (jsOrStr (info.duration.getD "") "0")
    genres := info.toptags.getD []
    popularity := 0
    spotifyId := none
    albumCover := info.albumImage
    artistId := none
    albumId := none }

/-- The record built from a full MusicBrainz recording (route.ts 390-402). -/
def mbStageRecord (full : MbFull) (title artist album : String) :
    EnrichedMetadata :=
  { title := jsOrStr (full.title.getD "") title
    artist := jsOrStr (full.artistCreditName.getD "") artist
    album := jsOrStr (full.releaseTitle.getD "") album
    releaseDate := jsOrStr (full.releaseDate.getD "") ""
    duration := jsRound (jsParseInt (jsOrStr (full.length.getD "") "0") / 1000)
    genres := full.genres.getD []
    popularity := 0
    spotifyId := none
    albumCover := none
    artistId := full.artistCreditId
    albumId := full.releaseId }

/-- The orchestrator `enrichMetadataWithAPIs` (route.ts 341-410): Spotify
first; on `null`, Last.fm search then info; on `null` again, MusicBrainz
search then full fetch; otherwise `null`. -/
def enrichMetadataWithAPIs (P : Providers) (title artist album : String) :
    Option EnrichedMetadata :=
  match enrichMetadata P title artist album with
  | some m => some m
  | none =>
    match P.lfSearch, P.lfInfo with
    | some _, some info => some (lfStageRecord info title artist album)
    | _, _ =>
      match P.mbSearch with
      | none => none
      | some recording =>
        match P.mbFull recording.id with
        | none => none
        | some full => some (mbStageRecord full title artist album)

/-! ## Post-acceptance validation (`POST`, route.ts 82-112) -/

/-- Failure predicate for one Spotify search outcome: non-ok response,
thrown transport error, or empty result set. -/
def spFails (o : SpOutcome) : Prop :=
  o = .httpErr ∨ o = .netThrow ∨ o = .ok []

/-- Replace the Last.fm and MusicBrainz oracles of a provider bundle,
leaving the Spotify transport untouched. -/
def withLowerProviders (P : Providers) (lf : Option LfTrack)
    (li : Option LfInfo) (mb : Option MbRecording)
    (mbf : String → Option MbFull) : Providers :=
  { P with lfSearch := lf, lfInfo := li, mbSearch := mb, mbFull := mbf }

/-- A sample album. -/
def exAlbum : SpotifyAlbum :=
  ⟨"alb1", "Night Moves", "1976-10-22", [⟨"https://img.example/cover", 640, 640⟩], none⟩

/-- A candidate whose score against the guess `{title "night", artist
"Queen"}` is exactly 0.7: substring title (0.4) + exact artist (0.3) +
no popularity bonus. -/
def nightTrack : SpotifyTrack :=
  ⟨"tn1", "night moves", [⟨"aq1", "Queen", none⟩], exAlbum, 251000, 0⟩

/-- A candidate matching the guess `{title "Imagine", artist "John
Lennon"}` exactly, with popularity above 50: score 1.0. -/
def imagineTrack : SpotifyTrack :=
  ⟨"ti1", "Imagine", [⟨"aj1", "John Lennon", none⟩],
   ⟨"alb2", "Imagine", "1971-09-09", [⟨"https://img.example/imagine", 640, 640⟩], none⟩,
   183000, 80⟩

/-- A provider bundle whose Spotify search always answers with the
boundary-score candidate. -/
def boundaryProviders : Providers :=
  ⟨some "tok", fun _ => .ok [nightTrack], fun _ => none, fun _ => none,
   none, none, none, fun _ => none⟩

/-- A provider bundle whose Spotify search always answers with the
perfectly matching candidate. -/
def acceptingProviders : Providers :=
  ⟨some "tok", fun _ => .ok [imagineTrack], fun _ => none, fun _ => none,
   none, none, none, fun _ => none⟩

/-- A provider bundle in which every transport fails. -/
def failingProviders : Providers :=
  ⟨some "tok", fun _ => .httpErr, fun _ => none, fun _ => none,
   none, none, none, fun _ => none⟩

/-- A Last.fm `track.getInfo` answer naming a completely different song. -/
def dreamsInfo : LfInfo :=
  ⟨some "Dreams", some "Packaday", some "Dreams EP", some "01 Mar 2017",
   some "251", some ["indie"], some "https://img.example/dreams"⟩

/-- A provider bundle in which Spotify authentication fails and Last.fm
answers with `dreamsInfo`. -/
def lastfmProviders : Providers :=
  ⟨none, fun _ => .httpErr, fun _ => none, fun _ => none,
   some ⟨"Dreams"⟩, some dreamsInfo, none, fun _ => none⟩

/-- The `dreamsInfo` candidate reshaped as a track, for scoring it
against the guess. -/
def dreamsTrack : SpotifyTrack :=
  ⟨"td1", "Dreams", [⟨"ap1", "Packaday", none⟩], exAlbum, 251000, 0⟩

/-- A full MusicBrainz recording naming a completely different song. -/
def mbDreamsFull : MbFull :=
  ⟨some "Dreams", some "Packaday", some "mbid-artist", some "Dreams EP",
   some "2017-03-01", some "mbid-release", some "251000", some ["indie"]⟩

/-- A provider bundle in which Spotify authentication fails, Last.fm
finds nothing, and MusicBrainz answers with `mbDreamsFull`. -/
def mbProviders : Providers :=
  ⟨none, fun _ => .httpErr, fun _ => none, fun _ => none,
   none, none, some ⟨"rec1"⟩, fun _ => some mbDreamsFull⟩

/-- `enrichTrackData` reads the providers only through the two detail
fetch oracles. -/
lemma enrichTrackData_congr (P Q : Providers)
    (h2 : P.spArtistFetch = Q.spArtistFetch)
    (h3 : P.spAlbumFetch = Q.spAlbumFetch) (track : SpotifyTrack) :
    enrichTrackData P track = enrichTrackData Q track := by
  simp only [enrichTrackData, h2, h3]

/-- `searchLoop` reads the providers only through the Spotify oracles. -/
lemma searchLoop_congr (P Q : Providers) (t a : String)
    (h1 : P.spSearch = Q.spSearch)
    (h2 : P.spArtistFetch = Q.spArtistFetch)
    (h3 : P.spAlbumFetch = Q.spAlbumFetch) :
    ∀ qs, searchLoop P t a qs = searchLoop Q t a qs := by
  intro qs
  induction qs with
  | nil => rfl
  | cons q rest ih =>
    simp only [searchLoop, h1, ih, enrichTrackData_congr P Q h2 h3]

/-- A successful `searchLoop` exits on a query whose response was ok and
whose best candidate scored strictly above 0.7. -/
lemma searchLoop_some_sound (P : Providers) (t a : String) :
    ∀ (qs : List String) (tr : SpotifyTrack),
      searchLoop P t a qs = some tr →
      ∃ q, q ∈ qs ∧ ∃ tracks bestMatch, P.spSearch q = .ok tracks ∧
        findBestMatch tracks t a = some bestMatch ∧ bestMatch.score > 0.7 ∧
        tr = enrichTrackData P bestMatch.track := by
  intro qs
  induction qs with
  | nil => intro tr h; simp [searchLoop] at h
  | cons q rest ih =>
    intro tr h
    simp only [searchLoop] at h
    rcases hs : P.spSearch q with tracks | _ | _ <;> rw [hs] at h <;>
      dsimp only at h
    · by_cases hl : tracks.length > 0
      · rw [if_pos hl] at h
        rcases hb : findBestMatch tracks t a with _ | bestMatch <;>
          rw [hb] at h <;> dsimp only at h
        · obtain ⟨q', hq', r⟩ := ih tr h
          exact ⟨q', List.mem_cons_of_mem _ hq', r⟩
        · by_cases hsc : bestMatch.score > 0.7
          · rw [if_pos hsc] at h
            exact ⟨q, List.mem_cons_self q rest, tracks, bestMatch, hs, hb, hsc,
              (Option.some_inj.mp h).symm⟩
          · rw [if_neg hsc] at h
            obtain ⟨q', hq', r⟩ := ih tr h
            exact ⟨q', List.mem_cons_of_mem _ hq', r⟩
      · rw [if_neg hl] at h
        obtain ⟨q', hq', r⟩ := ih tr h
        exact ⟨q', List.mem_cons_of_mem _ hq', r⟩
    · obtain ⟨q', hq', r⟩ := ih tr h
      exact ⟨q', List.mem_cons_of_mem _ hq', r⟩
    · simp at h

/-- If every query of the list fails (non-ok, thrown, or empty), the
query loop yields `null`. -/
lemma searchLoop_all_fail (P : Providers) (t a : String) :
    ∀ qs, (∀ q ∈ qs, spFails (P.spSearch q)) →
      searchLoop P t a qs = none := by
  intro qs
  induction qs with
  | nil => intro _; rfl
  | cons q rest ih =>
    intro h
    have hq := h q (List.mem_cons_self q rest)
    have hrest : ∀ q' ∈ rest, spFails (P.spSearch q') :=
      fun q' hq' => h q' (List.mem_cons_of_mem _ hq')
    simp only [searchLoop]
    rcases hq with hq | hq | hq <;> rw [hq] <;> simp [ih hrest]

/-- `searchSpotifyTrack` does not depend on the lower-provider oracles. -/
lemma searchSpotifyTrack_withLower (P : Providers) (lf : Option LfTrack)
    (li : Option LfInfo) (mb : Option MbRecording)
    (mbf : String → Option MbFull) (query t a : String) :
    searchSpotifyTrack (withLowerProviders P lf li mb mbf) query t a =
      searchSpotifyTrack P query t a := by
  unfold searchSpotifyTrack
  have htok : (withLowerProviders P lf li mb mbf).token = P.token := rfl
  rw [htok,
    searchLoop_congr (withLowerProviders P lf li mb mbf) P t a rfl rfl rfl]

/-- `enrichMetadata` does not depend on the lower-provider oracles. -/
lemma enrichMetadata_withLower (P : Providers) (lf : Option LfTrack)
    (li : Option LfInfo) (mb : Option MbRecording)
    (mbf : String → Option MbFull) (title artist album : String) :
    enrichMetadata (withLowerProviders P lf li mb mbf) title artist album =
      enrichMetadata P title artist album := by
  simp only [enrichMetadata, searchSpotifyTrack_withLower]

/-! ## Claim theorems -/

/-- C10: the primary provider's enrichment result is independent of the
album hint — the album is folded only into the initial search string,
which `searchSpotifyTrack` receives but never reads, so for every
transport behaviour the two runs coincide definitionally. -/
theorem c10_album_independence (P : Providers) (title artist album1 album2 : String) :
    enrichMetadata P title artist album1 = enrichMetadata P title artist album2 := rfl

/-- C9: if the primary provider yields an accepted candidate, the
orchestrator's result is that record and is unchanged under arbitrary
replacement of the Last.fm and MusicBrainz oracles — the lower-priority
providers are never consulted. -/
theorem c9_short_circuit (P : Providers) (title artist album : String)
    (m : EnrichedMetadata) (h : enrichMetadata P title artist album = some m) :
    enrichMetadataWithAPIs P title artist album = some m ∧
    ∀ (lf : Option LfTrack) (li : Option LfInfo) (mb : Option MbRecording)
      (mbf : String → Option MbFull),
      enrichMetadataWithAPIs (withLowerProviders P lf li mb mbf) title artist album
        = some m := by
  constructor
  · simp only [enrichMetadataWithAPIs, h]
  · intro lf li mb mbf
    simp only [enrichMetadataWithAPIs, enrichMetadata_withLower, h]

/-- C9 witness: a Spotify transport answering with a perfectly matching
candidate short-circuits past adversarial lower providers. -/
theorem c9_short_circuit_witness :
    enrichMetadata acceptingProviders "Imagine" "John Lennon" "Imagine" =
      some (spotifyRecord imagineTrack) ∧
    enrichMetadataWithAPIs
      (withLowerProviders acceptingProviders (some ⟨"Dreams"⟩) (some dreamsInfo)
        (some ⟨"mb1"⟩) (fun _ => some ⟨some "Other", none, none, none, none, none, none, none⟩))
      "Imagine" "John Lennon" "Imagine" = some (spotifyRecord imagineTrack) := by
  have h : enrichMetadata acceptingProviders "Imagine" "John Lennon" "Imagine" =
      some (spotifyRecord imagineTrack) := by with_unfolding_all decide
  exact ⟨h, (c9_short_circuit _ _ _ _ _ h).2 _ _ _ _⟩

/-- C8: the enrichment pipeline never propagates a transport failure: an
authentication failure or all-failing searches (non-2xx, thrown, or
empty) make the primary stage contribute nothing, and with the lower
providers failing as well the orchestrator terminates with `null`. -/
theorem c8_no_exception_propagation (P : Providers) (title artist album : String)
    (hsp : P.token = none ∨ ∀ q, spFails (P.spSearch q)) :
    enrichMetadata P title artist album = none ∧
    ((P.lfSearch = none ∨ P.lfInfo = none) →
      (P.mbSearch = none ∨ ∀ i, P.mbFull i = none) →
      enrichMetadataWithAPIs P title artist album = none) := by
  have hmain : enrichMetadata P title artist album = none := by
    rcases hsp with h | h
    · simp only [enrichMetadata, searchSpotifyTrack, h]
    · cases ht : P.token with
      | none => simp only [enrichMetadata, searchSpotifyTrack, ht]
      | some tok =>
        simp only [enrichMetadata, searchSpotifyTrack, ht]
        rw [searchLoop_all_fail P title _ _ (fun q _ => h q)]
  refine ⟨hmain, fun hlf hmb => ?_⟩
  have hmb2 :
      (match P.mbSearch with
        | none => (none : Option EnrichedMetadata)
        | some recording =>
          match P.mbFull recording.id with
          | none => none
          | some full => some (mbStageRecord full title artist album)) = none := by
    rcases hmb with h | h
    · rw [h]
    · cases P.mbSearch with
      | none => rfl
      | some recording => simp only [h recording.id]
  simp only [enrichMetadataWithAPIs, hmain]
  rcases hlf with h1 | h1
  · rw [h1]
    exact hmb2
  · rw [h1]
    cases P.lfSearch with
    | none => exact hmb2
    | some lt => exact hmb2

/-- C8 witness: with every transport failing, the orchestrator returns
`null` without propagating any error. -/
theorem c8_no_exception_propagation_witness :
    (failingProviders.token = none ∨ ∀ q, spFails (failingProviders.spSearch q)) ∧
    enrichMetadataWithAPIs failingProviders "Big Smoke" "Tash Sultana" "Unknown Album"
      = none := by
  have hsp : failingProviders.token = none ∨
      ∀ q, spFails (failingProviders.spSearch q) :=
    Or.inr (fun _ => Or.inl rfl)
  exact ⟨hsp,
    (c8_no_exception_propagation failingProviders _ _ _ hsp).2
      (Or.inl rfl) (Or.inl rfl)⟩

/-- C4: the title parser is a total function, and whenever none of the
pattern rules matches (or survives its guard) it returns the fallback
guess with the sentinels and the trimmed label as title. -/
theorem c4_parser_total_fallback (title : String)
    (h : noPatternMatches title = true) :
    extractBasicMetadata title =
      ⟨"Unknown Artist", "Unknown Album", jsTrimS title⟩ := by
  unfold noPatternMatches at h
  simp only [Bool.and_eq_true, Option.isNone_iff_eq_none] at h
  obtain ⟨⟨⟨h1, h2⟩, h3⟩, h4⟩ := h
  simp only [extractBasicMetadata, h1, h2, h3, h4]
  rfl

/-- C4 witness: a label matching no rule yields the fallback guess. -/
theorem c4_parser_total_fallback_witness :
    noPatternMatches "justsomeweirdtitle" = true ∧
    extractBasicMetadata "justsomeweirdtitle" =
      ⟨"Unknown Artist", "Unknown Album", "justsomeweirdtitle"⟩ := by
  have h : noPatternMatches "justsomeweirdtitle" = true := by decide
  have h2 := c4_parser_total_fallback "justsomeweirdtitle" h
  have h3 : jsTrimS "justsomeweirdtitle" = "justsomeweirdtitle" := by decide
  rw [h3] at h2
  exact ⟨h, h2⟩

/-- The shared-token ratio is non-negative. -/
lemma tokenRatio_nonneg (x y : List Char) : 0 ≤ tokenRatio x y := by
  unfold tokenRatio
  exact div_nonneg (Nat.cast_nonneg _) (Nat.cast_nonneg _)

/-- The shared-token ratio is at most one. -/
lemma tokenRatio_le_one (x y : List Char) : tokenRatio x y ≤ 1 := by
  unfold tokenRatio
  have h1 : ((jsSplitWs (lowerL x)).filter
        (fun w => (jsSplitWs (lowerL y)).contains w)).length ≤
      max (jsSplitWs (lowerL x)).length (jsSplitWs (lowerL y)).length :=
    le_trans (List.length_filter_le _ _) (le_max_left _ _)
  rcases Nat.eq_zero_or_pos
      (max (jsSplitWs (lowerL x)).length (jsSplitWs (lowerL y)).length) with h0 | h0
  · rw [h0]
    simp
  · exact div_le_one_of_le₀ (by exact_mod_cast h1) (Nat.cast_nonneg _)

/-- The title component lies in `[0, 0.6]`. -/
lemma titleScore_bounds (n t : String) :
    0 ≤ titleScore n t ∧ titleScore n t ≤ 0.6 := by
  simp only [titleScore]
  split_ifs
  · norm_num
  · norm_num
  · constructor
    · exact mul_nonneg (tokenRatio_nonneg _ _) (by norm_num)
    · calc tokenRatio (cleanTitleForComparisonL t.data)
            (cleanTitleForComparisonL n.data) * 0.3 ≤ 1 * 0.3 :=
            mul_le_mul_of_nonneg_right (tokenRatio_le_one _ _) (by norm_num)
      _ ≤ 0.6 := by norm_num

/-- The artist component lies in `[0, 0.3]`. -/
lemma artistScore_bounds (track : SpotifyTrack) (a : String) :
    0 ≤ artistScore track a ∧ artistScore track a ≤ 0.3 := by
  unfold artistScore
  by_cases hc : a ≠ "" ∧ a ≠ "Unknown Artist"
  · rw [if_pos hc]
    cases track.artists.head? with
    | none => norm_num
    | some a0 =>
      dsimp only
      split_ifs <;> norm_num
  · rw [if_neg hc]
    norm_num

/-- C6: the similarity scorer is a pure function of its arguments and its
value always lies in the closed interval `[0, 1]`: every additive
component is non-negative (title at most 0.6, artist at most 0.3,
popularity bonus at most 0.1) and the sum is capped at 1.0. -/
theorem c6_score_bounds (track : SpotifyTrack) (originalTitle originalArtist : String) :
    0 ≤ calculateSimilarityScore track originalTitle originalArtist ∧
    calculateSimilarityScore track originalTitle originalArtist ≤ 1 := by
  have h10 : (1.0 : ℚ) = 1 := by norm_num
  unfold calculateSimilarityScore jsMin
  dsimp only
  obtain ⟨ht0, ht6⟩ := titleScore_bounds track.name originalTitle
  obtain ⟨ha0, ha3⟩ := artistScore_bounds track originalArtist
  rw [h10]
  constructor
  · split_ifs <;> linarith
  · split_ifs <;> linarith

/-- A singleton candidate list scores to that candidate. -/
lemma findBestMatch_singleton (t : SpotifyTrack) (ti a : String) :
    findBestMatch [t] ti a = some ⟨t, calculateSimilarityScore t ti a⟩ := rfl

/-- C3: a candidate of the primary provider's search is accepted exactly
when its best score strictly exceeds 0.7: (i) an accepted search exits on
a query whose best candidate scored above 0.7, (ii) a best candidate
above 0.7 is accepted on the spot, and (iii) a best candidate scoring at
most 0.7 — in particular exactly 0.7 — is not accepted and the loop
continues with the remaining queries. -/
theorem c3_threshold_strict (P : Providers) (query t a : String) :
    (∀ tr, searchSpotifyTrack P query t a = some tr →
      ∃ q, q ∈ buildSearchQueries t a ∧ ∃ tracks bestMatch,
        P.spSearch q = .ok tracks ∧ findBestMatch tracks t a = some bestMatch ∧
        bestMatch.score > 0.7 ∧ tr = enrichTrackData P bestMatch.track) ∧
    (∀ q rest tracks bestMatch, P.spSearch q = .ok tracks →
      findBestMatch tracks t a = some bestMatch → bestMatch.score > 0.7 →
      searchLoop P t a (q :: rest) = some (enrichTrackData P bestMatch.track)) ∧
    (∀ q rest tracks bestMatch, P.spSearch q = .ok tracks →
      findBestMatch tracks t a = some bestMatch → bestMatch.score ≤ 0.7 →
      searchLoop P t a (q :: rest) = searchLoop P t a rest) := by
  refine ⟨?_, ?_, ?_⟩
  · intro tr h
    unfold searchSpotifyTrack at h
    cases ht : P.token with
    | none => rw [ht] at h; exact absurd h (by simp)
    | some tok =>
      rw [ht] at h
      dsimp only at h
      exact searchLoop_some_sound P t a _ tr h
  · intro q rest tracks bestMatch hs hb hsc
    have hne : tracks ≠ [] := by
      intro he; subst he; simp [findBestMatch] at hb
    have hl : tracks.length > 0 := List.length_pos.mpr hne
    simp only [searchLoop, hs]
    rw [if_pos hl, hb]
    dsimp only
    rw [if_pos hsc]
  · intro q rest tracks bestMatch hs hb hsc
    have hne : tracks ≠ [] := by
      intro he; subst he; simp [findBestMatch] at hb
    have hl : tracks.length > 0 := List.length_pos.mpr hne
    simp only [searchLoop, hs]
    rw [if_pos hl, hb]
    dsimp only
    rw [if_neg (not_lt.mpr hsc)]

/-- C3 witness: a concrete candidate whose best score is exactly 0.7 is
rejected and the query loop moves on. -/
theorem c3_threshold_strict_witness :
    boundaryProviders.spSearch "q0" = .ok [nightTrack] ∧
    findBestMatch [nightTrack] "night" "Queen" =
      some ⟨nightTrack, calculateSimilarityScore nightTrack "night" "Queen"⟩ ∧
    calculateSimilarityScore nightTrack "night" "Queen" = 0.7 ∧
    searchLoop boundaryProviders "night" "Queen" ["q0"] =
      searchLoop boundaryProviders "night" "Queen" [] := by
  have hbm := findBestMatch_singleton nightTrack "night" "Queen"
  have hsc : calculateSimilarityScore nightTrack "night" "Queen" = 0.7 := by
    with_unfolding_all decide
  exact ⟨rfl, hbm, hsc,
    (c3_threshold_strict boundaryProviders "q0" "night" "Queen").2.2 "q0" []
      [nightTrack] _ rfl hbm (le_of_eq hsc)⟩

/-- C1 (amended): only the primary provider's candidates are similarity
scored and thresholded — (i) a record accepted from Spotify comes from a
query whose best candidate scored above 0.7; (ii) when the primary stage
yields nothing, the secondary provider's first search result is accepted
with no similarity scoring at all; (iii) when the primary and secondary
stages yield nothing, the tertiary provider's first search result is
accepted, again with no similarity scoring. -/
theorem c1_only_primary_scored (P : Providers) (title artist album : String) :
    (∀ m, enrichMetadata P title artist album = some m →
      ∃ q, q ∈ buildSearchQueries title (jsOrStr artist "Unknown Artist") ∧
        ∃ tracks bestMatch, P.spSearch q = .ok tracks ∧
          findBestMatch tracks title (jsOrStr artist "Unknown Artist") =
            some bestMatch ∧ bestMatch.score > 0.7) ∧
    (∀ lt info, enrichMetadata P title artist album = none →
      P.lfSearch = some lt → P.lfInfo = some info →
      enrichMetadataWithAPIs P title artist album =
        some (lfStageRecord info title artist album)) ∧
    (∀ recording full, enrichMetadata P title artist album = none →
      (P.lfSearch = none ∨ P.lfInfo = none) →
      P.mbSearch = some recording → P.mbFull recording.id = some full →
      enrichMetadataWithAPIs P title artist album =
        some (mbStageRecord full title artist album)) := by
  refine ⟨?_, ?_, ?_⟩
  · intro m h
    unfold enrichMetadata at h
    dsimp only at h
    have hswap : ∀ q q' : String,
        searchSpotifyTrack P q title (jsOrStr artist "Unknown Artist") =
          searchSpotifyTrack P q' title (jsOrStr artist "Unknown Artist") :=
      fun _ _ => rfl
    rw [hswap _ ""] at h
    cases hst : searchSpotifyTrack P "" title (jsOrStr artist "Unknown Artist") with
    | none => rw [hst] at h; exact absurd h (by simp)
    | some tr =>
      unfold searchSpotifyTrack at hst
      cases ht : P.token with
      | none => rw [ht] at hst; exact absurd hst (by simp)
      | some tok =>
        rw [ht] at hst
        dsimp only at hst
        obtain ⟨q, hq, tracks, bestMatch, h1, h2, h3, _⟩ :=
          searchLoop_some_sound P title (jsOrStr artist "Unknown Artist") _ tr hst
        exact ⟨q, hq, tracks, bestMatch, h1, h2, h3⟩
  · intro lt info h hlf hinfo
    simp only [enrichMetadataWithAPIs, h, hlf, hinfo]
  · intro recording full h hlf hmb hmbf
    have hmb2 :
        (match P.mbSearch with
          | none => (none : Option EnrichedMetadata)
          | some recording =>
            match P.mbFull recording.id with
            | none => none
            | some full => some (mbStageRecord full title artist album)) =
        some (mbStageRecord full title artist album) := by
      rw [hmb]
      dsimp only
      rw [hmbf]
    simp only [enrichMetadataWithAPIs, h]
    rcases hlf with h1 | h1
    · rw [h1]
      exact hmb2
    · rw [h1]
      cases P.lfSearch with
      | none => exact hmb2
      | some lt => exact hmb2

/-- C1 amended-claim witness: with the primary stage empty, the
secondary provider's answer is returned as is; with the secondary empty
as well, the tertiary provider's answer is returned as is. -/
theorem c1_only_primary_scored_witness :
    enrichMetadata lastfmProviders "Big Smoke" "Tash Sultana" "Unknown Album" = none ∧
    enrichMetadataWithAPIs lastfmProviders "Big Smoke" "Tash Sultana" "Unknown Album" =
      some (lfStageRecord dreamsInfo "Big Smoke" "Tash Sultana" "Unknown Album") ∧
    enrichMetadata mbProviders "Big Smoke" "Tash Sultana" "Unknown Album" = none ∧
    enrichMetadataWithAPIs mbProviders "Big Smoke" "Tash Sultana" "Unknown Album" =
      some (mbStageRecord mbDreamsFull "Big Smoke" "Tash Sultana" "Unknown Album") := by
  have h : enrichMetadata lastfmProviders "Big Smoke" "Tash Sultana" "Unknown Album"
      = none := rfl
  have h2 : enrichMetadata mbProviders "Big Smoke" "Tash Sultana" "Unknown Album"
      = none := rfl
  exact ⟨h,
    (c1_only_primary_scored lastfmProviders _ _ _).2.1 ⟨"Dreams"⟩ dreamsInfo h rfl rfl,
    h2,
    (c1_only_primary_scored mbProviders _ _ _).2.2 ⟨"rec1"⟩ mbDreamsFull h2
      (Or.inl rfl) rfl rfl⟩

/-- C1 counterexample: the orchestrator accepts a Last.fm candidate whose
similarity score against the guess is 0 — far below 0.7 — so it is false
that every provider's candidates are scored and accepted only above the
threshold. -/
theorem c1_counterexample :
    enrichMetadataWithAPIs lastfmProviders "Big Smoke" "Tash Sultana" "Unknown Album" =
      some (lfStageRecord dreamsInfo "Big Smoke" "Tash Sultana" "Unknown Album") ∧
    (lfStageRecord dreamsInfo "Big Smoke" "Tash Sultana" "Unknown Album").title =
      "Dreams" ∧
    (lfStageRecord dreamsInfo "Big Smoke" "Tash Sultana" "Unknown Album").artist =
      "Packaday" ∧
    calculateSimilarityScore dreamsTrack "Big Smoke" "Tash Sultana" < 0.7 := by
  refine ⟨?_, rfl, rfl, ?_⟩
  · with_unfolding_all decide
  · with_unfolding_all decide

/-! ## Lemmas about the regex engine (toolkit for C5 and C7) -/

/-- A flatMap over pointwise-empty blocks is empty. -/
lemma flatMap_eq_nil_of {α β : Type} (l : List α) (f : α → List β)
    (h : ∀ x ∈ l, f x = []) : l.flatMap f = [] := by
  induction l with
  | nil => rfl
  | cons a t ih =>
    simp only [List.flatMap_cons, h a (List.mem_cons_self a t), List.nil_append]
    exact ih (fun x hx => h x (List.mem_cons_of_mem _ hx))

/-- Pointwise-equal blocks give equal flatMaps. -/
lemma flatMap_congr_of {α β : Type} (l : List α) (f g : α → List β)
    (h : ∀ x ∈ l, f x = g x) : l.flatMap f = l.flatMap g := by
  induction l with
  | nil => rfl
  | cons a t ih =>
    simp only [List.flatMap_cons, h a (List.mem_cons_self a t)]
    rw [ih (fun x hx => h x (List.mem_cons_of_mem _ hx))]

/-- Membership from a successful index lookup. -/
lemma mem_of_getElem2 {α : Type} {l : List α} {n : Nat} {a : α}
    (h : l[n]? = some a) : a ∈ l := by
  obtain ⟨h1, h2⟩ := List.getElem?_eq_some_iff.mp h
  exact h2 ▸ List.getElem_mem h1

/-- Dropping a prefix never lengthens a list. -/
lemma length_dropWhile_le2 (p : Char → Bool) (l : List Char) :
    (l.dropWhile p).length ≤ l.length := by
  induction l with
  | nil => simp
  | cons c cs ih =>
    rw [List.dropWhile_cons]
    split
    · simp only [List.length_cons]
      omega
    · simp

/-- A leading run never exceeds the string length. -/
lemma leadRun_le_length (p : Char → Bool) :
    ∀ l : List Char, leadRun p l ≤ l.length := by
  intro l
  induction l with
  | nil => simp [leadRun]
  | cons c cs ih =>
    simp only [leadRun, List.length_cons]
    split <;> omega

/-- A leading run across an all-satisfying prefix. -/
lemma leadRun_append_all (p : Char → Bool) (xs ys : List Char)
    (h : ∀ c ∈ xs, p c = true) :
    leadRun p (xs ++ ys) = xs.length + leadRun p ys := by
  induction xs with
  | nil => simp
  | cons c cs ih =>
    have hc := h c (List.mem_cons_self c cs)
    have ih2 := ih (fun x hx => h x (List.mem_cons_of_mem _ hx))
    simp only [List.cons_append, leadRun, hc, if_true, List.length_cons,
      List.append_eq, ih2]
    omega

/-- A leading run over an all-satisfying string is everything. -/
lemma leadRun_all (p : Char → Bool) (l : List Char)
    (h : ∀ c ∈ l, p c = true) : leadRun p l = l.length := by
  have h2 := leadRun_append_all p l [] h
  simpa using h2

/-- Every position strictly inside a leading run satisfies the class. -/
lemma leadRun_elem (p : Char → Bool) :
    ∀ (l : List Char) (j m : Nat), j ≤ leadRun p l → m < j →
      ∃ c, l[m]? = some c ∧ p c = true := by
  intro l
  induction l with
  | nil => intro j m hj hm; simp [leadRun] at hj; omega
  | cons c cs ih =>
    intro j m hj hm
    by_cases hc : p c = true
    · cases m with
      | zero => exact ⟨c, by simp, hc⟩
      | succ m2 =>
        simp only [leadRun, hc, if_true] at hj
        cases j with
        | zero => omega
        | succ j2 =>
          obtain ⟨c2, h1, h2⟩ := ih j2 m2 (by omega) (by omega)
          exact ⟨c2, by simpa using h1, h2⟩
    · rw [Bool.not_eq_true] at hc
      simp [leadRun, hc] at hj
      omega

/-- Unfolding of `mtch` on concatenation. -/
lemma mtch_cat_eq (a b : RE) (s : List Char) (k : Caps) :
    mtch (.cat a b) s k = (mtch a s k).flatMap (fun pr => mtch b pr.1 pr.2) := rfl

/-- Unfolding of `mtch` on a group. -/
lemma mtch_grp_eq (n : Nat) (a : RE) (s : List Char) (k : Caps) :
    mtch (.grp n a) s k =
      (mtch a s k).map
        (fun pr => (pr.1, (n, s.take (s.length - pr.1.length)) :: pr.2)) := rfl

/-- The greedy star's first candidate consumes the whole leading run. -/
lemma mtch_starG_eq (p : Char → Bool) (s : List Char) (k : Caps) :
    mtch (.starG p) s k =
      (s.drop (leadRun p s), k) :: drops s k (List.range (leadRun p s)).reverse := by
  simp [mtch, drops, List.range_succ]

/-- The greedy plus's first candidate consumes the whole (non-empty)
leading run. -/
lemma mtch_plusG_eq (p : Char → Bool) (s : List Char) (k : Caps) (m : Nat)
    (hm : leadRun p s = m + 1) :
    mtch (.plusG p) s k =
      (s.drop (m + 1), k) :: drops s k (List.range' 1 m).reverse := by
  have h : List.range' 1 (m + 1) = List.range' 1 m ++ [1 + m] := by
    simpa using @List.range'_concat 1 1 m
  simp [mtch, drops, hm, h, Nat.add_comm]

/-- A satisfied character class consumes one character. -/
lemma mtch_cls_cons (p : Char → Bool) (c : Char) (cs : List Char) (k : Caps)
    (h : p c = true) : mtch (.cls p) (c :: cs) k = [(cs, k)] := by
  simp [mtch, h]

/-- Head of a concatenation's candidates from heads of the parts. -/
lemma mtch_cat_head (a b : RE) (s : List Char) (k : Caps)
    (x y : List Char × Caps) (ta tb : List (List Char × Caps))
    (ha : mtch a s k = x :: ta) (hb : mtch b x.1 x.2 = y :: tb) :
    ∃ t, mtch (.cat a b) s k = y :: t := by
  refine ⟨tb ++ ta.flatMap (fun pr => mtch b pr.1 pr.2), ?_⟩
  rw [mtch_cat_eq, ha]
  simp [hb]

/-- Head of a group's candidates from the head of its body. -/
lemma mtch_grp_head (n : Nat) (a : RE) (s : List Char) (k : Caps)
    (x : List Char × Caps) (t : List (List Char × Caps))
    (ha : mtch a s k = x :: t) :
    ∃ t2, mtch (.grp n a) s k =
      (x.1, (n, s.take (s.length - x.1.length)) :: x.2) :: t2 := by
  refine ⟨t.map (fun pr => (pr.1, (n, s.take (s.length - pr.1.length)) :: pr.2)), ?_⟩
  rw [mtch_grp_eq, ha, List.map_cons]

/-- A `\s*` + character-class pattern has no candidate when no reachable
position (through the whitespace run) starts with a satisfying
character whose continuation succeeds. -/
lemma mtch_ws_cls_nil (pq : Char → Bool) (R : RE) (s : List Char) (k : Caps)
    (h : ∀ j c cs, j ≤ leadRun jsWs s → s.drop j = c :: cs → pq c = true →
      mtch R cs k = []) :
    mtch (.cat (.starG jsWs) (.cat (.cls pq) R)) s k = [] := by
  rw [mtch_cat_eq]
  show ((List.range (leadRun jsWs s + 1)).reverse.map (fun i => (s.drop i, k))).flatMap
      (fun pr => mtch (.cat (.cls pq) R) pr.1 pr.2) = []
  rw [List.flatMap_map]
  apply flatMap_eq_nil_of
  intro j hj
  have hj2 : j ≤ leadRun jsWs s := by
    rw [List.mem_reverse, List.mem_range] at hj
    omega
  rw [mtch_cat_eq]
  cases hdrop : s.drop j with
  | nil => simp [mtch]
  | cons c cs =>
    by_cases hc : pq c = true
    · rw [mtch_cls_cons pq c cs k hc]
      simp only [List.flatMap_cons, List.flatMap_nil, List.append_nil]
      exact h j c cs hj2 hdrop hc
    · simp only [mtch]
      rw [if_neg hc]
      rfl

/-- In `T ++ rest` with a parenthesis-free `T` whose last character is
not whitespace, no noise-shaped pattern can match starting strictly
inside `T`: the whitespace run cannot bridge across `T`'s last character
to reach an opening parenthesis. -/
lemma noise_prefix_block_nil (pq : Char → Bool)
    (hpq : ∀ c, pq c = true → c = '(') (R : RE) (T rest : List Char) (k : Caps)
    (hpar : '(' ∉ T)
    (hlast : ∀ c, T.getLast? = some c → jsWs c = false)
    (i : Nat) (hi : i < T.length) :
    mtch (.cat (.starG jsWs) (.cat (.cls pq) R)) ((T ++ rest).drop i) k = [] := by
  apply mtch_ws_cls_nil
  intro j c cs hj hdrop hc
  exfalso
  have hcp : c = '(' := hpq c hc
  subst hcp
  have hpos : (T ++ rest)[i + j]? = some '(' := by
    have h1 : (((T ++ rest).drop i).drop j).head? = some '(' := by
      rw [hdrop]
      rfl
    rw [List.head?_eq_getElem?, List.getElem?_drop, List.getElem?_drop] at h1
    simpa using h1
  by_cases hord : i + j < T.length
  · apply hpar
    have h2 : T[i + j]? = some '(' := by
      rw [List.getElem?_append, if_pos hord] at hpos
      exact hpos
    exact mem_of_getElem2 h2
  · have hTne : T ≠ [] := by
      intro he
      subst he
      simp at hi
    have hm : T.length - 1 - i < j := by omega
    obtain ⟨c2, hc2, hws⟩ := leadRun_elem jsWs ((T ++ rest).drop i) j
      (T.length - 1 - i) hj hm
    rw [List.getElem?_drop] at hc2
    have hidx : i + (T.length - 1 - i) = T.length - 1 := by omega
    rw [hidx] at hc2
    have hTlast : T[T.length - 1]? = some c2 := by
      rw [List.getElem?_append, if_pos (by omega)] at hc2
      exact hc2
    have hgl : T.getLast? = some c2 := by
      rw [List.getLast?_eq_getElem?]
      exact hTlast
    rw [hlast c2 hgl] at hws
    exact Bool.false_ne_true hws

/-- Empty match lists give no first match. -/
lemma firstMatchLen_none_of (r : RE) (s : List Char)
    (h : mtch r s [] = []) : firstMatchLen r s = none := by
  simp [firstMatchLen, h]

/-- The global replace walks over a region with no match. -/
lemma replaceGo_prefix (r : RE) :
    ∀ (T rest : List Char),
      (∀ i, i < T.length → firstMatchLen r ((T ++ rest).drop i) = none) →
      replaceGo r (T ++ rest) 0 = T ++ replaceGo r rest 0 := by
  intro T
  induction T with
  | nil => intro rest _; rfl
  | cons c T2 ih =>
    intro rest h
    have h0 : firstMatchLen r (c :: (T2 ++ rest)) = none := by
      have h1 := h 0 (by simp)
      simpa using h1
    have hunfold : replaceGo r (c :: (T2 ++ rest)) 0 =
        match firstMatchLen r (c :: (T2 ++ rest)) with
        | none => c :: replaceGo r (T2 ++ rest) 0
        | some 0 => c :: replaceGo r (T2 ++ rest) 0
        | some (k + 1) => replaceGo r (T2 ++ rest) k := rfl
    rw [List.cons_append, hunfold, h0]
    dsimp only
    rw [ih rest (fun i hi => by
      have h2 := h (i + 1) (by simp only [List.length_cons]; omega)
      simpa using h2)]
    rw [List.cons_append]

/-- The global replace is the identity on a string with no match at any
position. -/
lemma replaceGo_id (r : RE) :
    ∀ s : List Char,
      (∀ i, i < s.length → firstMatchLen r (s.drop i) = none) →
      replaceGo r s 0 = s := by
  intro s
  induction s with
  | nil => intro _; rfl
  | cons c s2 ih =>
    intro h
    have h0 : firstMatchLen r (c :: s2) = none := by
      have h1 := h 0 (by simp)
      simpa using h1
    have hunfold : replaceGo r (c :: s2) 0 =
        match firstMatchLen r (c :: s2) with
        | none => c :: replaceGo r s2 0
        | some 0 => c :: replaceGo r s2 0
        | some (k + 1) => replaceGo r s2 k := rfl
    rw [hunfold, h0]
    dsimp only
    rw [ih (fun i hi => by
      have h2 := h (i + 1) (by simp only [List.length_cons]; omega)
      simpa using h2)]

/-- A `jsTrimL`-fixed string is no longer than its front-trimmed form. -/
lemma jsTrimL_length_le (T : List Char) :
    (jsTrimL T).length ≤ (T.dropWhile jsWs).length := by
  unfold jsTrimL
  simp only [List.length_reverse]
  have h := length_dropWhile_le2 jsWs (T.dropWhile jsWs).reverse
  simpa using h

/-- A `dropWhile` that preserves the length is the identity. -/
lemma dropWhile_length_eq {p : Char → Bool} {l : List Char}
    (h : (List.dropWhile p l).length = l.length) : List.dropWhile p l = l := by
  cases l with
  | nil => rfl
  | cons c cs =>
    by_cases hc : p c = true
    · exfalso
      rw [List.dropWhile_cons, if_pos hc] at h
      have h2 := length_dropWhile_le2 p cs
      simp only [List.length_cons] at h
      omega
    · rw [List.dropWhile_cons, if_neg hc]

/-- The first character of a non-empty trim-fixed string is not
whitespace. -/
lemma jsTrim_fixed_head (T : List Char) (h : jsTrimL T = T) :
    ∀ c, T.head? = some c → jsWs c = false := by
  intro c hc
  by_contra hws
  rw [Bool.not_eq_false] at hws
  cases T with
  | nil => simp at hc
  | cons c0 cs =>
    have hc0 : c0 = c := by simpa using hc
    subst hc0
    have h1 : (jsTrimL (c0 :: cs)).length ≤ cs.length := by
      have h2 := jsTrimL_length_le (c0 :: cs)
      rw [List.dropWhile_cons, if_pos hws] at h2
      exact le_trans h2 (length_dropWhile_le2 _ _)
    rw [h] at h1
    simp only [List.length_cons] at h1
    omega

/-- The last character of a non-empty trim-fixed string is not
whitespace. -/
lemma jsTrim_fixed_last (T : List Char) (h : jsTrimL T = T) :
    ∀ c, T.getLast? = some c → jsWs c = false := by
  intro c hc
  by_contra hws
  rw [Bool.not_eq_false] at hws
  -- front-trim is the identity, so the trim is a pure back-trim
  have hlen : (jsTrimL T).length = T.length := by rw [h]
  have hfront : T.dropWhile jsWs = T := by
    apply dropWhile_length_eq
    have h1 := jsTrimL_length_le T
    have h2 := length_dropWhile_le2 jsWs T
    omega
  have hback : jsTrimL T = (T.reverse.dropWhile jsWs).reverse := by
    unfold jsTrimL
    rw [hfront]
  -- the back-trim drops the whitespace last character
  have hrev : T.reverse.head? = some c := by
    rw [List.head?_reverse]
    exact hc
  cases hr : T.reverse with
  | nil =>
    rw [hr] at hrev
    simp at hrev
  | cons c0 cs =>
    rw [hr] at hrev
    have hc0 : c0 = c := by simpa using hrev
    subst hc0
    have h3 : (jsTrimL T).length ≤ cs.length := by
      rw [hback, hr]
      simp only [List.length_reverse]
      rw [List.dropWhile_cons, if_pos hws]
      exact length_dropWhile_le2 _ _
    have h4 : T.length = cs.length + 1 := by
      have h5 : T.reverse.length = cs.length + 1 := by rw [hr]; rfl
      simpa using h5
    omega

/-- A noise replacement walks unchanged over a parenthesis-free trimmed
prefix. -/
lemma replaceAll_noise_append (r tail : RE) (hr : r = noiseRE tail)
    (T rest : List Char) (hpar : '(' ∉ T)
    (hlast : ∀ c, T.getLast? = some c → jsWs c = false) :
    replaceAllG r (T ++ rest) = T ++ replaceAllG r rest := by
  subst hr
  unfold replaceAllG
  apply replaceGo_prefix
  intro i hi
  apply firstMatchLen_none_of
  exact noise_prefix_block_nil (fun x => x == '(')
    (fun c hc => by simpa using hc) tail T rest [] hpar hlast i hi

/-- A noise replacement is the identity on a parenthesis-free trimmed
string. -/
lemma replaceAll_noise_id (r tail : RE) (hr : r = noiseRE tail)
    (T : List Char) (hpar : '(' ∉ T)
    (hlast : ∀ c, T.getLast? = some c → jsWs c = false) :
    replaceAllG r T = T := by
  subst hr
  unfold replaceAllG
  apply replaceGo_id
  intro i hi
  apply firstMatchLen_none_of
  have h := noise_prefix_block_nil (fun x => x == '(')
    (fun c hc => by simpa using hc) tail T [] [] hpar hlast i hi
  rwa [List.append_nil] at h

/-- The query builder's clean title is the identity on a
parenthesis-free trimmed title. -/
lemma cleanSearchTitleL_id (T : List Char) (hpar : '(' ∉ T)
    (htrim : jsTrimL T = T) : cleanSearchTitleL T = T := by
  have hlast := jsTrim_fixed_last T htrim
  unfold cleanSearchTitleL
  rw [replaceAll_noise_id officialNoiseRE officialTailRE rfl T hpar hlast,
    replaceAll_noise_id lyricsNoiseRE _ rfl T hpar hlast,
    replaceAll_noise_id audioNoiseRE _ rfl T hpar hlast,
    replaceAll_noise_id officialOnlyNoiseRE _ rfl T hpar hlast,
    replaceAll_noise_id musicVideoNoiseRE _ rfl T hpar hlast, htrim]

/-- The query builder's clean title strips a trailing bare `(Lyrics)`
from a parenthesis-free trimmed title. -/
lemma cleanSearchTitleL_lyrics (T : List Char) (hpar : '(' ∉ T)
    (htrim : jsTrimL T = T) :
    cleanSearchTitleL (T ++ " (Lyrics)".data) = T := by
  have hlast := jsTrim_fixed_last T htrim
  have h1 : replaceAllG officialNoiseRE (T ++ " (Lyrics)".data) =
      T ++ " (Lyrics)".data := by
    rw [replaceAll_noise_append officialNoiseRE officialTailRE rfl T _ hpar hlast,
      show replaceAllG officialNoiseRE " (Lyrics)".data = " (Lyrics)".data
        from by decide]
  have h2 : replaceAllG lyricsNoiseRE (T ++ " (Lyrics)".data) = T := by
    rw [replaceAll_noise_append lyricsNoiseRE _ rfl T _ hpar hlast]
    rw [show replaceAllG lyricsNoiseRE " (Lyrics)".data = [] from by decide]
    exact List.append_nil T
  unfold cleanSearchTitleL
  rw [h1, h2,
    replaceAll_noise_id audioNoiseRE _ rfl T hpar hlast,
    replaceAll_noise_id officialOnlyNoiseRE _ rfl T hpar hlast,
    replaceAll_noise_id musicVideoNoiseRE _ rfl T hpar hlast, htrim]

/-- C7 (amended): the query builder strips the parenthetical qualifiers
`(Official Audio|Video|Music Video)`, `(Lyrics)`/`(Lyric)`, `(Audio)`,
`(Official)` and `(Music Video)` (case-insensitive); in particular, for
every parenthesis-free trimmed title ending in a bare `(Lyrics)`
parenthetical, every emitted query uses the title with that parenthetical
removed.  (A bare `(Video)` parenthetical is not stripped — see the
counterexample.) -/
theorem c7_noise_stripping (T : List Char) (artist : String)
    (hpar : '(' ∉ T) (htrim : jsTrimL T = T) :
    cleanSearchTitle (String.mk (T ++ " (Lyrics)".data)) = String.mk T ∧
    buildSearchQueries (String.mk (T ++ " (Lyrics)".data)) artist =
      buildSearchQueries (String.mk T) artist := by
  have hclean : cleanSearchTitleL (T ++ " (Lyrics)".data) = T :=
    cleanSearchTitleL_lyrics T hpar htrim
  have hcs : cleanSearchTitle (String.mk (T ++ " (Lyrics)".data)) = String.mk T := by
    unfold cleanSearchTitle
    rw [show (String.mk (T ++ " (Lyrics)".data)).data = T ++ " (Lyrics)".data
      from rfl, hclean]
  have hcs2 : cleanSearchTitle (String.mk T) = String.mk T := by
    unfold cleanSearchTitle
    rw [show (String.mk T).data = T from rfl, cleanSearchTitleL_id T hpar htrim]
  refine ⟨hcs, ?_⟩
  simp only [buildSearchQueries, hcs, hcs2]

/-- C7 amended-claim witness: stripping `(Lyrics)` from a concrete title
leaves the emitted queries identical to those of the bare title. -/
theorem c7_noise_stripping_witness :
    ('(' ∉ "Imagine".data) ∧ jsTrimL "Imagine".data = "Imagine".data ∧
    buildSearchQueries (String.mk ("Imagine".data ++ " (Lyrics)".data))
      "Unknown Artist" = buildSearchQueries "Imagine" "Unknown Artist" := by
  have h1 : '(' ∉ "Imagine".data := by decide
  have h2 : jsTrimL "Imagine".data = "Imagine".data := by decide
  exact ⟨h1, h2, (c7_noise_stripping "Imagine".data "Unknown Artist" h1 h2).2⟩

/-- C7 counterexample: a title ending in a bare `(Video)` parenthetical
keeps it — the clean title is unchanged and every emitted query still
contains `(Video)`, contradicting the claim that the video qualifier is
stripped. -/
theorem c7_counterexample :
    cleanSearchTitle "Imagine (Video)" = "Imagine (Video)" ∧
    buildSearchQueries "Imagine (Video)" "Unknown Artist" =
      ["track:\"Imagine (Video)\"", "Imagine (Video)"] := by
  exact ⟨by decide, by decide⟩

/-! ## Head-of-candidate-list lemmas (toolkit for C5) -/

/-- The priority-first candidate of a concatenation. -/
lemma mtch_head_cat {a b : RE} {s : List Char} {k : Caps}
    {x y : List Char × Caps}
    (ha : (mtch a s k).head? = some x)
    (hb : (mtch b x.1 x.2).head? = some y) :
    (mtch (.cat a b) s k).head? = some y := by
  obtain ⟨ta, hta⟩ := List.head?_eq_some_iff.mp ha
  obtain ⟨tb, htb⟩ := List.head?_eq_some_iff.mp hb
  rw [mtch_cat_eq, hta]
  simp [htb]

/-- The priority-first candidate of a satisfied character class. -/
lemma mtch_head_cls (p : Char → Bool) (c : Char) (cs : List Char) (k : Caps)
    (h : p c = true) : (mtch (.cls p) (c :: cs) k).head? = some (cs, k) := by
  rw [mtch_cls_cons p c cs k h]
  rfl

/-- The priority-first candidate of a greedy star eats the whole run. -/
lemma mtch_head_starG (p : Char → Bool) (s : List Char) (k : Caps) (m : Nat)
    (hm : leadRun p s = m) :
    (mtch (.starG p) s k).head? = some (s.drop m, k) := by
  subst hm
  rw [mtch_starG_eq]
  rfl

/-- The priority-first candidate of a greedy plus eats the whole run. -/
lemma mtch_head_plusG (p : Char → Bool) (s : List Char) (k : Caps) (m : Nat)
    (hm : leadRun p s = m + 1) :
    (mtch (.plusG p) s k).head? = some (s.drop (m + 1), k) := by
  rw [mtch_plusG_eq p s k m hm]
  rfl

/-- The priority-first candidate of a group records the consumed prefix. -/
lemma mtch_head_grp (n : Nat) (a : RE) (s : List Char) (k : Caps)
    (x : List Char × Caps) (ha : (mtch a s k).head? = some x) :
    (mtch (.grp n a) s k).head? =
      some (x.1, (n, s.take (s.length - x.1.length)) :: x.2) := by
  obtain ⟨t, ht⟩ := List.head?_eq_some_iff.mp ha
  rw [mtch_grp_eq, ht]
  rfl

/-- Decomposition of pattern 1: the lazy title group enumerates every
consumed length from 1 through the dot run, shortest first, each feeding
the rest of the pattern. -/
lemma mtch_lazy_head_decomp (R : RE) (s : List Char) :
    mtch (.cat (.grp 1 (.plusL jsDot)) R) s [] =
      (List.range' 1 (leadRun jsDot s)).flatMap
        (fun i => mtch R (s.drop i) [(1, s.take i)]) := by
  rw [mtch_cat_eq, mtch_grp_eq]
  show (((List.range' 1 (leadRun jsDot s)).map
      (fun i => (s.drop i, ([] : Caps)))).map
      (fun pr => (pr.1, (1, s.take (s.length - pr.1.length)) :: pr.2))).flatMap
      (fun pr => mtch R pr.1 pr.2) = _
  rw [List.map_map, List.flatMap_map]
  apply flatMap_congr_of
  intro i hi
  have hin : i ≤ leadRun jsDot s := by
    rw [List.mem_range'] at hi
    obtain ⟨j, hj, hij⟩ := hi
    omega
  have hlen : i ≤ s.length := le_trans hin (leadRun_le_length _ _)
  have htake : s.length - (s.drop i).length = i := by
    rw [List.length_drop]
    omega
  simp only [Function.comp, htake]

/-- The priority-first full match of the tail of pattern 1 on the
remainder `" (" ++ Q ++ ") - " ++ A`: it captures exactly the qualifier
and the artist. -/
lemma c5_block_head (T Q A : List Char)
    (hQ : Q ≠ []) (hQnp : ∀ c ∈ Q, (!(c == ')')) = true)
    (hA : A ≠ []) (hAdot : ∀ c ∈ A, jsDot c = true)
    (hAhead : ∀ c, A.head? = some c → jsWs c = false) :
    (mtch songYearArtistRest
        (' ' :: '(' :: (Q ++ (')' :: ' ' :: '-' :: ' ' :: A))) [(1, T)]).head? =
      some ([], [(3, A), (2, Q), (1, T)]) := by
  have hwsSp : jsWs ' ' = true := by decide
  have hwsLp : jsWs '(' = false := by decide
  have hwsDash : jsWs '-' = false := by decide
  have hA0 : leadRun jsWs A = 0 := by
    cases A with
    | nil => rfl
    | cons a A2 =>
      have := hAhead a rfl
      simp [leadRun, this]
  -- step S1: the whitespace star eats the single leading space
  have hS1 : (mtch (.starG jsWs)
      (' ' :: '(' :: (Q ++ (')' :: ' ' :: '-' :: ' ' :: A))) [(1, T)]).head? =
      some ('(' :: (Q ++ (')' :: ' ' :: '-' :: ' ' :: A)), [(1, T)]) := by
    exact mtch_head_starG jsWs _ _ 1 (by simp [leadRun, hwsSp, hwsLp])
  -- step C1: the literal open parenthesis
  have hC1 : (mtch (.cls (fun x => x == '('))
      ('(' :: (Q ++ (')' :: ' ' :: '-' :: ' ' :: A))) [(1, T)]).head? =
      some (Q ++ (')' :: ' ' :: '-' :: ' ' :: A), [(1, T)]) :=
    mtch_head_cls _ '(' _ _ (by decide)
  -- step G2: the qualifier group eats all of Q greedily
  have hG2 : (mtch (.grp 2 (.plusG (fun c => !(c == ')'))))
      (Q ++ (')' :: ' ' :: '-' :: ' ' :: A)) [(1, T)]).head? =
      some (')' :: ' ' :: '-' :: ' ' :: A, [(2, Q), (1, T)]) := by
    have hlr : leadRun (fun c => !(c == ')'))
        (Q ++ (')' :: ' ' :: '-' :: ' ' :: A)) = Q.length := by
      rw [leadRun_append_all _ Q _ hQnp]
      simp [leadRun]
    have hQlen : 0 < Q.length := List.length_pos.mpr hQ
    have hplus : (mtch (.plusG (fun c => !(c == ')')))
        (Q ++ (')' :: ' ' :: '-' :: ' ' :: A)) [(1, T)]).head? =
        some (')' :: ' ' :: '-' :: ' ' :: A, [(1, T)]) := by
      have h := mtch_head_plusG (fun c => !(c == ')')) _ [(1, T)] (Q.length - 1)
        (by rw [hlr]; omega)
      rw [show Q.length - 1 + 1 = Q.length from by omega] at h
      rwa [List.drop_left Q _] at h
    have h := mtch_head_grp 2 _ _ [(1, T)] _ hplus
    have htake : (Q ++ (')' :: ' ' :: '-' :: ' ' :: A)).take
        ((Q ++ (')' :: ' ' :: '-' :: ' ' :: A)).length -
          (')' :: ' ' :: '-' :: ' ' :: A).length) = Q := by
      have h1 : (Q ++ (')' :: ' ' :: '-' :: ' ' :: A)).length =
          Q.length + (')' :: ' ' :: '-' :: ' ' :: A).length :=
        List.length_append Q _
      rw [show (Q ++ (')' :: ' ' :: '-' :: ' ' :: A)).length -
          (')' :: ' ' :: '-' :: ' ' :: A).length = Q.length from by omega]
      exact List.take_left Q _
    rw [htake] at h
    exact h
  -- step C2: the literal close parenthesis
  have hC2 : (mtch (.cls (fun x => x == ')'))
      (')' :: ' ' :: '-' :: ' ' :: A) [(2, Q), (1, T)]).head? =
      some (' ' :: '-' :: ' ' :: A, [(2, Q), (1, T)]) :=
    mtch_head_cls _ ')' _ _ (by decide)
  -- step S2: the whitespace star before the dash
  have hS2 : (mtch (.starG jsWs)
      (' ' :: '-' :: ' ' :: A) [(2, Q), (1, T)]).head? =
      some ('-' :: ' ' :: A, [(2, Q), (1, T)]) :=
    mtch_head_starG jsWs _ _ 1 (by simp [leadRun, hwsSp, hwsDash])
  -- step C3: the literal dash
  have hC3 : (mtch (.cls (fun x => x == '-'))
      ('-' :: ' ' :: A) [(2, Q), (1, T)]).head? =
      some (' ' :: A, [(2, Q), (1, T)]) :=
    mtch_head_cls _ '-' _ _ (by decide)
  -- step S3: the whitespace star before the artist
  have hS3 : (mtch (.starG jsWs) (' ' :: A) [(2, Q), (1, T)]).head? =
      some (A, [(2, Q), (1, T)]) := by
    have h := mtch_head_starG jsWs (' ' :: A) [(2, Q), (1, T)] 1
      (by simp [leadRun, hwsSp, hA0])
    simpa using h
  -- step G3: the artist group eats all of A greedily
  have hG3 : (mtch (.grp 3 (.plusG jsDot)) A [(2, Q), (1, T)]).head? =
      some ([], [(3, A), (2, Q), (1, T)]) := by
    have hAlen : 0 < A.length := List.length_pos.mpr hA
    have hplus : (mtch (.plusG jsDot) A [(2, Q), (1, T)]).head? =
        some ([], [(2, Q), (1, T)]) := by
      have h := mtch_head_plusG jsDot A [(2, Q), (1, T)] (A.length - 1)
        (by rw [leadRun_all jsDot A hAdot]; omega)
      rw [show A.length - 1 + 1 = A.length from by omega, List.drop_length] at h
      exact h
    have h := mtch_head_grp 3 _ A [(2, Q), (1, T)] _ hplus
    simpa [List.take_length] using h
  exact mtch_head_cat hS1 (mtch_head_cat hC1 (mtch_head_cat hG2
    (mtch_head_cat hC2 (mtch_head_cat hS2 (mtch_head_cat hC3
      (mtch_head_cat hS3 hG3))))))

/-- The anchored match of pattern 1 on a label of the shape
`T ++ " (" ++ Q ++ ") - " ++ A`: the lazy title group stops at `T`, the
qualifier group captures `Q`, the artist group captures `A`. -/
lemma c5_reMatch (T Q A : List Char)
    (hT : T ≠ []) (hTdot : ∀ c ∈ T, jsDot c = true) (hTpar : '(' ∉ T)
    (hTlast : ∀ c, T.getLast? = some c → jsWs c = false)
    (hQ : Q ≠ []) (hQnp : ∀ c ∈ Q, (!(c == ')')) = true)
    (hA : A ≠ []) (hAdot : ∀ c ∈ A, jsDot c = true)
    (hAhead : ∀ c, A.head? = some c → jsWs c = false) :
    reMatch songYearArtistPattern
        (T ++ (' ' :: '(' :: (Q ++ (')' :: ' ' :: '-' :: ' ' :: A)))) =
      some [(3, A), (2, Q), (1, T)] := by
  have hTlen : 0 < T.length := List.length_pos.mpr hT
  have hTn : T.length + 1 ≤
      leadRun jsDot (T ++ (' ' :: '(' :: (Q ++ (')' :: ' ' :: '-' :: ' ' :: A)))) := by
    rw [leadRun_append_all jsDot T _ hTdot]
    have h1 : leadRun jsDot (' ' :: '(' :: (Q ++ (')' :: ' ' :: '-' :: ' ' :: A)))
        = leadRun jsDot ('(' :: (Q ++ (')' :: ' ' :: '-' :: ' ' :: A))) + 1 := by
      simp [leadRun, show jsDot ' ' = true from by decide]
    omega
  rw [reMatch,
    show songYearArtistPattern = RE.cat (.grp 1 (.plusL jsDot)) songYearArtistRest
      from rfl,
    mtch_lazy_head_decomp]
  set s := T ++ (' ' :: '(' :: (Q ++ (')' :: ' ' :: '-' :: ' ' :: A))) with hs
  set n := leadRun jsDot s with hn
  have hsplit : List.range' 1 n =
      List.range' 1 (T.length - 1) ++ List.range' T.length (n - T.length + 1) := by
    have h1 : 1 + 1 * (T.length - 1) = T.length := by omega
    have h2 : (n - T.length + 1) + (T.length - 1) = n := by omega
    calc List.range' 1 n
        = List.range' 1 ((n - T.length + 1) + (T.length - 1)) := by rw [h2]
      _ = List.range' 1 (T.length - 1) ++
            List.range' (1 + 1 * (T.length - 1)) (n - T.length + 1) :=
          (List.range'_append _ _ _ _).symm
      _ = List.range' 1 (T.length - 1) ++
            List.range' T.length (n - T.length + 1) := by rw [h1]
  rw [hsplit, List.flatMap_append]
  have hnil : (List.range' 1 (T.length - 1)).flatMap
      (fun i => mtch songYearArtistRest (s.drop i) [(1, s.take i)]) = [] := by
    apply flatMap_eq_nil_of
    intro i hi
    rw [List.mem_range'] at hi
    obtain ⟨j, hj, hij⟩ := hi
    have hilt : i < T.length := by omega
    exact noise_prefix_block_nil (fun x => x == '(')
      (fun c hc => by simpa using hc) _ T _ _ hTpar hTlast i hilt
  rw [hnil, List.nil_append,
    show n - T.length + 1 = (n - T.length) + 1 from rfl, List.range'_succ,
    List.flatMap_cons, List.drop_left T _, List.take_left T _]
  have hhead := c5_block_head T Q A hQ hQnp hA hAdot hAhead
  obtain ⟨t, ht⟩ := List.head?_eq_some_iff.mp hhead
  rw [ht, List.cons_append]
  rw [List.find?_cons_of_pos _ (by simp)]
  rfl

/-- C5: every label of the shape `Title (Qualifier) - Artist` — with a
non-empty parenthesis-free trimmed dot-only title, a non-empty
qualifier free of close parentheses whose trimmed form passes the
year/remaster/edition guard, and a non-empty trimmed dot-only artist —
parses to `{artist: Artist, album: "Unknown Album", title: Title}`; the
presence of the dash in such labels shows rule 1 takes priority over the
generic dash rule. -/
theorem c5_song_qualifier_artist (T Q A : List Char)
    (hT : T ≠ []) (hTdot : ∀ c ∈ T, jsDot c = true) (hTpar : '(' ∉ T)
    (hTtrim : jsTrimL T = T)
    (hQ : Q ≠ []) (hQnp : ∀ c ∈ Q, c ≠ ')')
    (hA : A ≠ []) (hAdot : ∀ c ∈ A, jsDot c = true) (hAtrim : jsTrimL A = A)
    (hGuard : songYearArtistGuard (jsTrimL Q) = true) :
    extractBasicMetadata
        (String.mk (T ++ " (".data ++ Q ++ ") - ".data ++ A)) =
      ⟨String.mk A, "Unknown Album", String.mk T⟩ := by
  have hTlast := jsTrim_fixed_last T hTtrim
  have hAhead := jsTrim_fixed_head A hAtrim
  have hQnp2 : ∀ c ∈ Q, (!(c == ')')) = true := fun c hc => by
    simpa using hQnp c hc
  have hmatch := c5_reMatch T Q A hT hTdot hTpar hTlast hQ hQnp2 hA hAdot hAhead
  have harg : String.mk (T ++ " (".data ++ Q ++ ") - ".data ++ A) =
      String.mk (T ++ (' ' :: '(' :: (Q ++ (')' :: ' ' :: '-' :: ' ' :: A)))) := by
    have hfix : T ++ " (".data ++ Q ++ ") - ".data ++ A =
        T ++ (' ' :: '(' :: (Q ++ (')' :: ' ' :: '-' :: ' ' :: A))) := by
      rw [show " (".data = [' ', '('] from rfl,
        show ") - ".data = [')', ' ', '-', ' '] from rfl]
      simp [List.append_assoc]
    rw [hfix]
  have htry : tryP1 (T ++ (' ' :: '(' :: (Q ++ (')' :: ' ' :: '-' :: ' ' :: A)))) =
      some ⟨String.mk A, "Unknown Album", String.mk T⟩ := by
    simp only [tryP1, hmatch]
    rw [show getCap [(3, A), (2, Q), (1, T)] 1 = T from rfl,
      show getCap [(3, A), (2, Q), (1, T)] 2 = Q from rfl,
      show getCap [(3, A), (2, Q), (1, T)] 3 = A from rfl,
      hTtrim, hAtrim, if_pos hGuard]
  rw [harg]
  simp only [extractBasicMetadata, htry]
  rfl

/-- C5 witness: the spec's rule-priority vector
`"Hurt (2009 Remaster) - Nine Inch Nails"`. -/
theorem c5_song_qualifier_artist_witness :
    ("Hurt".data ≠ [] ∧ '(' ∉ "Hurt".data ∧
      jsTrimL "Hurt".data = "Hurt".data ∧
      songYearArtistGuard (jsTrimL "2009 Remaster".data) = true) ∧
    extractBasicMetadata "Hurt (2009 Remaster) - Nine Inch Nails" =
      ⟨"Nine Inch Nails", "Unknown Album", "Hurt"⟩ := by
  have hb := c5_song_qualifier_artist "Hurt".data "2009 Remaster".data
    "Nine Inch Nails".data (by decide) (by decide) (by decide) (by decide)
    (by decide) (by decide) (by decide) (by decide) (by decide) (by decide)
  have hstr : String.mk ("Hurt".data ++ " (".data ++ "2009 Remaster".data ++
      ") - ".data ++ "Nine Inch Nails".data) =
      "Hurt (2009 Remaster) - Nine Inch Nails" := by decide
  rw [hstr] at hb
  exact ⟨⟨by decide, by decide, by decide, by decide⟩, hb⟩

end LaCassette
